import Mathlib

/-!
Shallow embedding of the corruption engine in `src/corrupt_data.py`
(class `DataErrorGenerator`), together with theorems checking the
natural-language specification against it.

Modelling conventions:
* pandas missing markers (`None` / `NaN`) are the single value `Cell.null`;
  `pd.isna(x)` is `x = Cell.null`.
* Python floats are modelled as exact rationals (`ℚ`).  `str(float)` is
  modelled by `floatStr`, which prints terminating decimal expansions
  (every float produced by the engine's arithmetic on decimal inputs is
  of that form).
* Randomness is modelled nondeterministically by an explicit oracle
  (`Rng`): a stream of rational draws (for `random.random` /
  `random.uniform`), a stream of naturals (for `random.randint` and the
  index picked by `random.choice`), and a stream of candidate index lists
  (for `random.sample`).  Each primitive clamps/reduces the raw draw into
  the range the Python primitive guarantees, so every oracle yields a
  possible run and every possible run is some oracle.
* The engine's consumption order of the random source mirrors the Python
  statement order.
-/

set_option linter.unusedVariables false

namespace CorruptData

/-- Explicit oracle for the process-wide random source (`random`). -/
structure Rng where
  qs : List ℚ
  ns : List Nat
  samples : List (List Nat)
  deriving DecidableEq

/-- Pop one rational draw (defaults to 0 when the stream is exhausted). -/
def popQ (g : Rng) : ℚ × Rng :=
  match g.qs with
  | [] => (0, g)
  | q :: t => (q, { g with qs := t })

/-- Pop one natural draw (defaults to 0 when the stream is exhausted). -/
def popN (g : Rng) : Nat × Rng :=
  match g.ns with
  | [] => (0, g)
  | n :: t => (n, { g with ns := t })

/-- Pop one candidate sample (defaults to `[]`). -/
def popSample (g : Rng) : List Nat × Rng :=
  match g.samples with
  | [] => ([], g)
  | s :: t => (s, { g with samples := t })

/-- Model of `random.random()`: a draw in `[0, 1)`. -/
def randFloat (g : Rng) : ℚ × Rng :=
  let (q, g) := popQ g
  (if 0 ≤ q ∧ q < 1 then q else 0, g)

/-- Model of `DataErrorGenerator._should_introduce_error`:
`random.random() < self.error_prob`. -/
def shouldErr (p : ℚ) (g : Rng) : Bool × Rng :=
  let (q, g) := randFloat g
  (decide (q < p), g)

/-- Model of `random.uniform(-1, 1)`: a draw in `[-1, 1]`. -/
def uniformPM1 (g : Rng) : ℚ × Rng :=
  let (q, g) := popQ g
  (if q < -1 then -1 else if 1 < q then 1 else q, g)

/-- Model of `random.randint(a, b)` (inclusive bounds, `a ≤ b`). -/
def randInt (a b : Nat) (g : Rng) : Nat × Rng :=
  let (n, g) := popN g
  (a + n % (b - a + 1), g)

/-- Model of `random.choice(xs)` on a nonempty list: an arbitrary
element, selected by the oracle's index draw reduced mod the length.
The default `d` is only reachable for `xs = []`, where CPython raises. -/
def chooseFrom (xs : List α) (d : α) (g : Rng) : α × Rng :=
  let (n, g) := popN g
  (xs.getD (n % xs.length) d, g)

/-- Model of `random.sample(range n, k)`: `k` distinct indices below `n`,
as supplied by the oracle (falling back to `List.range k` when the
oracle's candidate is not a valid sample).  CPython raises when `k > n`;
that case is unreachable for the configured fractions (≤ 1), and the
model then returns `[]` to stay total. -/
def sampleIdxs (n k : Nat) (g : Rng) : List Nat × Rng :=
  let (cand, g) := popSample g
  if cand.Nodup ∧ cand.length = k ∧ ∀ i ∈ cand, i < n then (cand, g)
  else (if k ≤ n then List.range k else [], g)

/-! ## The tabular data model -/

/-- One table cell: the missing marker, a string, or a (float) number. -/
inductive Cell where
  | null
  | str (s : String)
  | num (q : ℚ)
  deriving DecidableEq

/-- The fixed column set of the trip table (`clean_testfile.csv`). -/
inductive Col where
  | ride_id | rideable_type | started_at | ended_at
  | start_station_name | start_station_id | start_lat | start_lng
  | end_station_name | end_station_id | end_lat | end_lng
  | member_casual
  deriving DecidableEq

/-- One table row: a value for each of the 13 fixed columns. -/
structure Row where
  ride_id : Cell
  rideable_type : Cell
  started_at : Cell
  ended_at : Cell
  start_station_name : Cell
  start_station_id : Cell
  start_lat : Cell
  start_lng : Cell
  end_station_name : Cell
  end_station_id : Cell
  end_lat : Cell
  end_lng : Cell
  member_casual : Cell
  deriving DecidableEq

/-- `df.at[idx, c]`. -/
def rowGet (r : Row) : Col → Cell
  | .ride_id => r.ride_id
  | .rideable_type => r.rideable_type
  | .started_at => r.started_at
  | .ended_at => r.ended_at
  | .start_station_name => r.start_station_name
  | .start_station_id => r.start_station_id
  | .start_lat => r.start_lat
  | .start_lng => r.start_lng
  | .end_station_name => r.end_station_name
  | .end_station_id => r.end_station_id
  | .end_lat => r.end_lat
  | .end_lng => r.end_lng
  | .member_casual => r.member_casual

/-- `df.at[idx, c] = v`. -/
def rowSet (r : Row) (c : Col) (v : Cell) : Row :=
  match c with
  | .ride_id => { r with ride_id := v }
  | .rideable_type => { r with rideable_type := v }
  | .started_at => { r with started_at := v }
  | .ended_at => { r with ended_at := v }
  | .start_station_name => { r with start_station_name := v }
  | .start_station_id => { r with start_station_id := v }
  | .start_lat => { r with start_lat := v }
  | .start_lng => { r with start_lng := v }
  | .end_station_name => { r with end_station_name := v }
  | .end_station_id => { r with end_station_id := v }
  | .end_lat => { r with end_lat := v }
  | .end_lng => { r with end_lng := v }
  | .member_casual => { r with member_casual := v }

/-- The table's columns, in CSV order (drives the column-wise pass). -/
def allCols : List Col :=
  [.ride_id, .rideable_type, .started_at, .ended_at,
   .start_station_name, .start_station_id, .start_lat, .start_lng,
   .end_station_name, .end_station_id, .end_lat, .end_lng,
   .member_casual]

/-- A table (`pd.DataFrame`): a list of rows over the fixed column set. -/
abbrev DF := List Row

/-- A row with every field missing. -/
def nullRow : Row :=
  ⟨.null, .null, .null, .null, .null, .null, .null, .null, .null, .null,
   .null, .null, .null⟩

/-- Cell at row position `i`, column `c`. -/
def cellAt (df : DF) (i : Nat) (c : Col) : Cell :=
  rowGet (df.getD i nullRow) c

/-- The column set of a table (fixed by the data model). -/
def dfColumns : DF → List Col := fun _ => allCols

/-! ## String helpers (ASCII models of the Python string methods) -/

/-- Digit character for `n < 10`. -/
def digitChar (n : Nat) : Char := Char.ofNat (48 + n)

/-- Decimal digits of `n`, most significant first (`fuel ≥ n` suffices). -/
def natDigits (fuel n : Nat) : List Char :=
  match fuel with
  | 0 => []
  | fuel + 1 => if n < 10 then [digitChar n] else natDigits fuel (n / 10) ++ [digitChar (n % 10)]

/-- Decimal string of a natural number. -/
def natStr (n : Nat) : String := ⟨natDigits (n + 1) n⟩

/-- Numeric value of a digit string. -/
def digitsVal (cs : List Char) : Nat :=
  cs.foldl (fun a c => 10 * a + (c.toNat - 48)) 0

/-- Maximal leading digit run and the rest. -/
def digitRun (cs : List Char) : List Char × List Char :=
  (cs.takeWhile Char.isDigit, cs.dropWhile Char.isDigit)

/-- Consume one expected character. -/
def expectChar (c : Char) : List Char → Option (List Char)
  | [] => none
  | x :: t => if x = c then some t else none

/-- `str.upper()`. -/
def pyUpper (s : String) : String := ⟨s.data.map Char.toUpper⟩

/-- `str.lower()`. -/
def pyLower (s : String) : String := ⟨s.data.map Char.toLower⟩

/-- Worker for `str.title()`: the flag records whether the previous
character was alphabetic. -/
def titleGo : Bool → List Char → List Char
  | _, [] => []
  | prev, c :: t =>
    (if c.isAlpha then (if prev then c.toLower else c.toUpper) else c) :: titleGo c.isAlpha t

/-- `str.title()`. -/
def pyTitle (s : String) : String := ⟨titleGo false s.data⟩

/-- `str.replace(chr(38), "and")` (ampersand expansion). -/
def repAmp (s : String) : String :=
  ⟨s.data.foldr (fun c acc => (if c = '&' then ['a', 'n', 'd'] else [c]) ++ acc) []⟩

/-- Whitespace class of the regex used in the source. -/
def isWs (c : Char) : Bool :=
  c == ' ' || c == '\t' || c == '\n' || c == '\r'

/-- Worker for the whitespace-doubling regex substitution: the flag
records whether we are inside a whitespace run already replaced. -/
def subWsGo : Bool → List Char → List Char
  | _, [] => []
  | inWs, c :: t =>
    if isWs c then
      (if inWs then subWsGo true t else ' ' :: ' ' :: subWsGo true t)
    else c :: subWsGo false t

/-- Model of the regex substitution replacing each whitespace run by two
spaces. -/
def subWsStr (s : String) : String := ⟨subWsGo false s.data⟩

/-- Boolean list prefix test. -/
def isPre : List Char → List Char → Bool
  | [], _ => true
  | _ :: _, [] => false
  | a :: as, b :: bs => a == b && isPre as bs

/-- Boolean list infix test. -/
def infixOf : List Char → List Char → Bool
  | n, [] => isPre n []
  | n, c :: t => isPre n (c :: t) || infixOf n t

/-- Python substring containment (`sub in hay`). -/
def strContains (hay sub : String) : Bool := infixOf sub.data hay.data

/-- `float(s)` on the decimal forms the ids can take (optional sign,
digits, optional fractional part; exponents and specials are rejected,
which agrees with the source's fallback behaviour at every call site). -/
def pyFloat? (s : String) : Option ℚ :=
  let cs := s.data
  let (sgn, cs) :=
    match cs with
    | '-' :: t => ((-1 : ℚ), t)
    | '+' :: t => ((1 : ℚ), t)
    | _ => ((1 : ℚ), cs)
  let (ir, cs) := digitRun cs
  match cs with
  | [] => if ir = [] then none else some (sgn * digitsVal ir)
  | '.' :: rest =>
    let (fr, cs2) := digitRun rest
    if cs2 = [] ∧ (ir ≠ [] ∨ fr ≠ []) then
      some (sgn * ((digitsVal ir : ℚ) + (digitsVal fr : ℚ) / (10 ^ fr.length : ℚ)))
    else none
  | _ => none

/-- `int(s)`: optional sign followed by digits only. -/
def pyInt? (s : String) : Option Int :=
  let cs := s.data
  let (sgn, cs) :=
    match cs with
    | '-' :: t => ((-1 : Int), t)
    | '+' :: t => ((1 : Int), t)
    | _ => ((1 : Int), cs)
  let (ir, rest) := digitRun cs
  if ir ≠ [] ∧ rest = [] then some (sgn * digitsVal ir) else none

/-- Fractional decimal digits of `r / d` (numerator `r < d`), up to
`fuel` digits; terminates early at remainder 0.  All floats the engine
prints have terminating expansions. -/
def fracDigits (fuel : Nat) (r d : Nat) : List Char :=
  match fuel with
  | 0 => []
  | fuel + 1 =>
    if r = 0 then []
    else digitChar (r * 10 / d) :: fracDigits fuel (r * 10 % d) d

/-- Model of `str(float)`: sign, integer part, point, fraction digits
(`"x.0"` for integral values, as CPython prints). -/
def floatStr (q : ℚ) : String :=
  let a := q.num.natAbs
  let d := q.den
  let frac := fracDigits 30 (a % d) d
  (if q < 0 then "-" else "") ++ natStr (a / d) ++ "." ++
    (if a % d = 0 then "0" else ⟨frac⟩)

/-- `str(x)` / `astype(str)` on a cell.  The missing marker is a pandas
`NaN` (a float), so `astype(str)` renders it as the string `"nan"`. -/
def pyStr (c : Cell) : String :=
  match c with
  | .null => "nan"
  | .str s => s
  | .num q => floatStr q

/-! ## Datetime model

`datetime.datetime` values are seconds since 1970-01-01 00:00:00 (an
`Int`); the civil-calendar conversions are the standard era-based
algorithms. -/

/-- Gregorian leap year. -/
def isLeap (y : Int) : Bool :=
  (y % 4 == 0 && y % 100 != 0) || y % 400 == 0

/-- Days in a month. -/
def daysInMonth (y : Int) (m : Nat) : Nat :=
  match m with
  | 1 => 31 | 2 => if isLeap y then 29 else 28 | 3 => 31 | 4 => 30
  | 5 => 31 | 6 => 30 | 7 => 31 | 8 => 31 | 9 => 30 | 10 => 31
  | 11 => 30 | 12 => 31
  | _ => 0

/-- Days from 1970-01-01 to `y-m-d` (proleptic Gregorian). -/
def daysFromCivil (y : Int) (m d : Nat) : Int :=
  let y' := if m ≤ 2 then y - 1 else y
  let era := Int.fdiv y' 400
  let yoe := y' - era * 400
  let mp : Int := if 2 < m then (m : Int) - 3 else (m : Int) + 9
  let doy := Int.fdiv (153 * mp + 2) 5 + d - 1
  let doe := yoe * 365 + Int.fdiv yoe 4 - Int.fdiv yoe 100 + doy
  era * 146097 + doe - 719468

/-- Civil date `(y, m, d)` of a day count from 1970-01-01. -/
def civilFromDays (z : Int) : Int × Nat × Nat :=
  let z := z + 719468
  let era := Int.fdiv z 146097
  let doe := z - era * 146097
  let yoe := Int.fdiv (doe - Int.fdiv doe 1460 + Int.fdiv doe 36524 - Int.fdiv doe 146096) 365
  let y := yoe + era * 400
  let doy := doe - (365 * yoe + Int.fdiv yoe 4 - Int.fdiv yoe 100)
  let mp := Int.fdiv (5 * doy + 2) 153
  let d := doy - Int.fdiv (153 * mp + 2) 5 + 1
  let m := if mp < 10 then mp + 3 else mp - 9
  (if m ≤ 2 then y + 1 else y, m.toNat, d.toNat)

/-- Split an epoch time into calendar fields `(y, m, d, h, mi, s)`. -/
def splitEpoch (t : Int) : Int × Nat × Nat × Nat × Nat × Nat :=
  let days := Int.fdiv t 86400
  let sod := (t - days * 86400).toNat
  let c := civilFromDays days
  (c.1, c.2.1, c.2.2, sod / 3600, sod % 3600 / 60, sod % 60)

/-- Two-digit zero padding (as `strftime` prints). -/
def pad2 (n : Nat) : String :=
  if n < 10 then ⟨['0', digitChar n]⟩ else natStr n

/-- Four-digit zero padding for the year. -/
def pad4 (y : Int) : String :=
  (if y < 0 then "-" else "") ++
    (let a := y.natAbs
     if a < 10 then "000" ++ natStr a
     else if a < 100 then "00" ++ natStr a
     else if a < 1000 then "0" ++ natStr a
     else natStr a)

/-- `strftime` with the canonical format (the class's
`base_datetime_format`). -/
def formatCanonical (t : Int) : String :=
  match splitEpoch t with
  | (y, m, d, h, mi, s) =>
    pad4 y ++ "-" ++ pad2 m ++ "-" ++ pad2 d ++ " " ++
      pad2 h ++ ":" ++ pad2 mi ++ ":" ++ pad2 s

/-- `strftime` with the four alternate layouts of `_format_datetime`,
in source order (index `≥ 3` is the all-hyphen layout; the caller only
passes `0`–`3`). -/
def formatAlt (i : Nat) (t : Int) : String :=
  match splitEpoch t with
  | (y, m, d, h, mi, s) =>
    match i with
    | 0 => pad4 y ++ "/" ++ pad2 m ++ "/" ++ pad2 d ++ " " ++
             pad2 h ++ ":" ++ pad2 mi ++ ":" ++ pad2 s
    | 1 => pad4 y ++ pad2 m ++ pad2 d ++ " " ++
             pad2 h ++ ":" ++ pad2 mi ++ ":" ++ pad2 s
    | 2 => pad4 y ++ "-" ++ pad2 m ++ "-" ++ pad2 d ++ " " ++
             pad2 h ++ pad2 mi ++ pad2 s
    | _ => pad4 y ++ "-" ++ pad2 m ++ "-" ++ pad2 d ++ "-" ++
             pad2 h ++ "-" ++ pad2 mi ++ "-" ++ pad2 s

/-- The year field of the CPython `_strptime` pattern: exactly four
digits, and the `datetime` constructor requires year ≥ 1. -/
def reqYear (cs : List Char) : Option (Nat × List Char) :=
  let (r, rest) := digitRun cs
  if r.length = 4 ∧ 1 ≤ digitsVal r then some (digitsVal r, rest) else none

/-- A 1–2 digit numeric field with an inclusive value range (the
CPython `_strptime` patterns combined with the `datetime` constructor's
range checks). -/
def reqRun2 (lo hi : Nat) (cs : List Char) : Option (Nat × List Char) :=
  let (r, rest) := digitRun cs
  if (r.length = 1 ∨ r.length = 2) ∧ lo ≤ digitsVal r ∧ digitsVal r ≤ hi then
    some (digitsVal r, rest)
  else none

/-- Epoch seconds of a parsed calendar tuple. -/
def toEpoch (y m d h mi sec : Nat) : Int :=
  daysFromCivil (y : Int) m d * 86400 + (h : Int) * 3600 + (mi : Int) * 60 + (sec : Int)

/-- The `H:M:S` tail of the canonical parse. -/
def parseTimePart (y m d : Nat) (cs : List Char) : Option Int := do
  let (h, cs) ← reqRun2 0 23 cs
  let cs ← expectChar ':' cs
  let (mi, cs) ← reqRun2 0 59 cs
  let cs ← expectChar ':' cs
  let (sec, cs) ← reqRun2 0 59 cs
  if cs = [] then pure (toEpoch y m d h mi sec) else none

/-- The `D H:M:S` tail of the canonical parse. -/
def parseDay (y m : Nat) (cs : List Char) : Option Int := do
  let (d, cs) ← reqRun2 1 (daysInMonth (y : Int) m) cs
  let cs ← expectChar ' ' cs
  parseTimePart y m d cs

/-- The `M-D H:M:S` tail of the canonical parse. -/
def parseDatePart (y : Nat) (cs : List Char) : Option Int := do
  let (m, cs) ← reqRun2 1 12 cs
  let cs ← expectChar '-' cs
  parseDay y m cs

/-- `datetime.strptime(s, base_datetime_format)`: parse the canonical
layout `Y-M-D H:M:S` (4-digit year; 1–2-digit numeric fields as the
CPython `_strptime` patterns accept; field ranges validated as the
`datetime` constructor does; the whole string must match), or `none` on
failure. -/
def parseCanonical (s : String) : Option Int := do
  let (y, cs) ← reqYear s.data
  let cs ← expectChar '-' cs
  parseDatePart y cs

/-- `strptime` applied to a cell: a float raises `TypeError` in the
source, which every call site catches; both are `none` here. -/
def parseCell (c : Cell) : Option Int :=
  match c with
  | .str s => parseCanonical s
  | _ => none

/-! ## The Entity Variant Registry (`self.station_variants`) -/

/-- The cached variant family of one station
(`DataErrorGenerator._get_station_variants` cache values). -/
structure VariantSet where
  names : List Cell
  ids : List Cell
  coordinates : List (Cell × Cell)
  deriving DecidableEq

/-- `self.station_variants`: an insertion-ordered map keyed by the
station-name cell. -/
abbrev Registry := List (Cell × VariantSet)

/-- Dictionary lookup `self.station_variants[name]` /
`name in self.station_variants`. -/
def regFind : Registry → Cell → Option VariantSet
  | [], _ => none
  | (k, v) :: t, name => if k = name then some v else regFind t name

/-- The jittered coordinate variants: `n` points, each the base point
plus independent `random.uniform(-1, 1)` offsets (latitude drawn first,
as in the source loop). -/
def mkJitter (a b : ℚ) : Nat → Rng → List (Cell × Cell) × Rng
  | 0, g => ([], g)
  | n + 1, g =>
    let (u, g) := uniformPM1 g
    let (v, g) := uniformPM1 g
    let (rest, g) := mkJitter a b n g
    ((.num (a + u), .num (b + v)) :: rest, g)

/-- The id-variant block of `_get_station_variants`: `try` the numeric
perturbations (`float(id) + 0.1`, `int(id) + 1`); on failure of either
conversion fall back to the single stringified id. -/
def idVariants (sid : Cell) : List Cell :=
  if sid = .null then [sid]
  else
    let f? := match sid with
      | .num q => some q
      | .str s => pyFloat? s
      | .null => none
    let i? : Option Int := match sid with
      | .num q => some (Int.tdiv q.num q.den)
      | .str s => pyInt? s
      | .null => none
    match f?, i? with
    | some f, some i =>
      [.str (pyStr sid), .str (floatStr (f + 1 / 10)), .str (toString (i + 1))]
    | _, _ => [.str (pyStr sid)]

/-- The five fixed name variants (original, title, upper,
ampersand-expanded, whitespace-doubled).  A non-null, non-string name
would raise `AttributeError` in the source and is outside the data
model. -/
def nameVariants (name : Cell) : List Cell :=
  match name with
  | .str s => [.str s, .str (pyTitle s), .str (pyUpper s), .str (repAmp s), .str (subWsStr s)]
  | c => [c]

/-- The variant-set construction block of `_get_station_variants`
(source lines 113–152): `random.randint(3, 4)` coordinate variants
jittered from the base point when both coordinates are present and
numeric, else the literal pair; the five name variants; the id
variants.  A present-but-non-numeric coordinate would raise in the
source; within the data model present coordinates are numeric. -/
def mkVariantSet (g : Rng) (name sid lat lng : Cell) : VariantSet × Rng :=
  let (nv, g) := randInt 3 4 g
  let (coords, g) :=
    match lat, lng with
    | .num a, .num b => mkJitter a b nv g
    | _, _ => ([(lat, lng)], g)
  ({ names := nameVariants name, ids := idVariants sid, coordinates := coords }, g)

/-- `DataErrorGenerator._get_station_variants` (source lines 107–154):
degenerate uncached set for a missing name; otherwise return the cached
set, or build and cache a new one. -/
def getStationVariants (st : Registry) (g : Rng) (name sid lat lng : Cell) :
    VariantSet × Registry × Rng :=
  if name = .null then
    ({ names := [name], ids := [sid], coordinates := [(lat, lng)] }, st, g)
  else
    match regFind st name with
    | some vs => (vs, st, g)
    | none =>
      let (vs, g) := mkVariantSet g name sid lat lng
      (vs, st ++ [(name, vs)], g)

/-! ## The field mutators -/

/-- Respace the id: a space after every second character. -/
def spaceJoin (s : String) : String :=
  let chunk : List Char → List (List Char) :=
    fun cs => (List.range ((cs.length + 1) / 2)).map (fun i => (cs.drop (2 * i)).take 2)
  ⟨(chunk s.data).intersperse [' '] |>.foldr (· ++ ·) []⟩

/-- Per-character random lower-casing (probability 0.3 per character). -/
def lowerRand : List Char → Rng → List Char × Rng
  | [], g => ([], g)
  | c :: t, g =>
    let (q, g) := randFloat g
    let c' := if q < 3 / 10 then c.toLower else c
    let (t', g) := lowerRand t g
    (c' :: t', g)

/-- `DataErrorGenerator._modify_ride_id`.  A numeric id would raise
`TypeError` in the source; ids are opaque strings in the data model. -/
def modifyRideId (p : ℚ) (g : Rng) (v : Cell) : Cell × Rng :=
  if v = .null then (v, g)
  else
    match v with
    | .str s =>
      let (b1, g) := shouldErr p g
      let s := if b1 then spaceJoin s else s
      let (b2, g) := shouldErr p g
      if b2 then
        let (cs, g) := lowerRand s.data g
        (.str ⟨cs⟩, g)
      else (.str s, g)
    | _ => (v, g)

/-- The misspelling table for `rideable_type` (source order). -/
def classicVariants : List String :=
  ["class_bike", "classic_bik", "clasic_bike", "classic bike"]

/-- The misspelling table for `rideable_type`, electric entry. -/
def electricVariants : List String :=
  ["electrc_bike", "electric bike", "eclectic_bike", "elektric_bike"]

/-- `DataErrorGenerator._modify_rideable_type`: substring match against
the fixed lookup table, in dict insertion order. -/
def modifyRideableType (p : ℚ) (g : Rng) (v : Cell) : Cell × Rng :=
  if v = .null then (v, g)
  else
    let (b, g) := shouldErr p g
    if b then
      match v with
      | .str s =>
        if strContains s "classic_bike" then
          let (c, g) := chooseFrom classicVariants "" g
          (.str c, g)
        else if strContains s "electric_bike" then
          let (c, g) := chooseFrom electricVariants "" g
          (.str c, g)
        else (v, g)
      | _ => (v, g)
    else (v, g)

/-- `DataErrorGenerator._format_datetime` (source lines 37–50):
reformat a canonical timestamp with a uniformly chosen alternate
layout (the `random.choice` is drawn only after a successful parse);
unparseable input is returned unchanged. -/
def formatDatetime (g : Rng) (c : Cell) : Cell × Rng :=
  match parseCell c with
  | none => (c, g)
  | some t =>
    let (n, g) := popN g
    (.str (formatAlt (n % 4) t), g)

/-- The reformat stage of `_modify_datetime` (both timestamps pushed
through `_format_datetime` when the gate fired). -/
def mdFormatStage (b : Bool) (g : Rng) (sdt edt : Cell) : Cell × Cell × Rng :=
  if b then
    let (s1, g) := formatDatetime g sdt
    let (e1, g) := formatDatetime g edt
    (s1, e1, g)
  else (sdt, edt, g)

/-- The end-before-start stage of `_modify_datetime`: parse the current
start value; on failure the `except` clause returns the current pair
(the three `randint`s and the `choice` are never drawn, since the list
of candidate deltas is built after the parse).  On success subtract a
delta of 1–24 hours, 1–7 days, or 1–4 weeks (all three magnitudes drawn
eagerly, then one picked by `random.choice`). -/
def mdBackdateStage (b : Bool) (g : Rng) (sdt edt : Cell) : (Cell × Cell) × Rng :=
  if b then
    match parseCell sdt with
    | none => ((sdt, edt), g)
    | some t =>
      let (h, g) := randInt 1 24 g
      let (d, g) := randInt 1 7 g
      let (w, g) := randInt 1 4 g
      let (c, g) := popN g
      let δ : Int := [(h : Int) * 3600, (d : Int) * 86400, (w : Int) * 604800].getD (c % 3) 0
      ((sdt, .str (formatCanonical (t - δ))), g)
  else ((sdt, edt), g)

/-- `DataErrorGenerator._modify_datetime` (source lines 83–105). -/
def modifyDatetime (p : ℚ) (g : Rng) (sdt edt : Cell) : (Cell × Cell) × Rng :=
  if sdt = .null ∨ edt = .null then ((sdt, edt), g)
  else
    let (b1, g) := shouldErr p g
    match mdFormatStage b1 g sdt edt with
    | (sdt, edt, g) =>
      let (b2, g) := shouldErr p g
      mdBackdateStage b2 g sdt edt

/-- `DataErrorGenerator._modify_station_name` (source lines 156–171):
resolve (or create) the variant set — with no coordinates passed — then
gate the name replacement and the id replacement independently. -/
def modifyStationName (p : ℚ) (st : Registry) (g : Rng) (name sid : Cell) :
    (Cell × Cell) × Registry × Rng :=
  if name = .null ∨ sid = .null then ((name, sid), st, g)
  else
    let (vs, st, g) := getStationVariants st g name sid .null .null
    let mid := Cell.str (pyStr sid)
    let (b1, g) := shouldErr p g
    let (mn, g) := if b1 then chooseFrom vs.names .null g else (name, g)
    let (b2, g) := shouldErr p g
    let (mid, g) := if b2 then chooseFrom vs.ids .null g else (mid, g)
    ((mn, mid), st, g)

/-- `DataErrorGenerator._modify_coordinates` (source lines 173–184). -/
def modifyCoordinates (p : ℚ) (st : Registry) (g : Rng) (lat lng name sid : Cell) :
    (Cell × Cell) × Registry × Rng :=
  if name = .null ∨ lat = .null ∨ lng = .null then ((lat, lng), st, g)
  else
    let (b, g) := shouldErr p g
    if b then
      let (vs, st, g) := getStationVariants st g name sid lat lng
      let (pq, g) := chooseFrom vs.coordinates (.null, .null) g
      (pq, st, g)
    else ((lat, lng), st, g)

/-- The member/casual misspelling table, member entry. -/
def memberVariants : List String := ["Member", "MEMBER", "membr", "Members"]

/-- The member/casual misspelling table, casual entry. -/
def casualVariants : List String := ["Casual", "CASUAL", "causual", "Casuals"]

/-- `DataErrorGenerator._modify_member_type`: case-insensitive match
against the two canonical values, in dict insertion order. -/
def modifyMemberType (p : ℚ) (g : Rng) (v : Cell) : Cell × Rng :=
  if v = .null then (v, g)
  else
    let (b, g) := shouldErr p g
    if b then
      match v with
      | .str s =>
        if pyLower "member" = pyLower s then
          let (c, g) := chooseFrom memberVariants "" g
          (.str c, g)
        else if pyLower "casual" = pyLower s then
          let (c, g) := chooseFrom casualVariants "" g
          (.str c, g)
        else (v, g)
      | _ => (v, g)
    else (v, g)

/-! ## The pipeline (`DataErrorGenerator.introduce_errors`) -/

/-- `List.map` with the element's position. -/
def mapIdxGo (f : Nat → Row → Row) (i : Nat) : List Row → List Row
  | [] => []
  | r :: t => f i r :: mapIdxGo f (i + 1) t

/-- Null the cells of column `c` at the sampled positions
(`df_with_errors.loc[empty_indices, column] = None`). -/
def injectColumn (c : Col) (idxs : List Nat) (df : DF) : DF :=
  mapIdxGo (fun i r => if i ∈ idxs then rowSet r c .null else r) 0 df

/-- The column-wise missing-value loop: for every column except the
three identifier columns, sample `k` distinct row positions and null
them.  `n` and `k` are computed once from the input table. -/
def injectCols (n k : Nat) : List Col → DF × Rng → DF × Rng
  | [], s => s
  | c :: cs, (df, g) =>
    if c = Col.ride_id ∨ c = Col.start_station_id ∨ c = Col.end_station_id then
      injectCols n k cs (df, g)
    else
      let (idxs, g) := sampleIdxs n k g
      injectCols n k cs (injectColumn c idxs df, g)

/-- `num_empty = int(num_rows * max_empty_percentage)`, in exact integer
arithmetic: for `0 ≤ pct` this equals `⌊(n : ℚ) * pct⌋` (see
`numEmpty_eq_floor`); Python's `int()` truncation agrees with the floor
there because the product is nonnegative. -/
def numEmpty (n : Nat) (pct : ℚ) : Nat :=
  n * pct.num.toNat / pct.den

/-- The missing-value injection stage (source lines 202–213). -/
def injectEmpty (pct : ℚ) (g : Rng) (df : DF) : DF × Rng :=
  injectCols df.length (numEmpty df.length pct) allCols (df, g)

/-- The `astype(str)` pass over the two station-id columns (source
lines 216–220).  `astype(str)` renders a pandas `NaN` as the string
`"nan"`; the line that would restore those cells to `None` is commented
out in the source. -/
def astypeIds (df : DF) : DF :=
  df.map fun r =>
    rowSet (rowSet r .start_station_id (.str (pyStr (rowGet r .start_station_id))))
      .end_station_id (.str (pyStr (rowGet r .end_station_id)))

/-- The per-row mutation pass in source statement order (lines
223–281).  Each stage reads the row as already updated by the previous
stages — in particular the coordinate stages read the station name
written back by the station-name stages. -/
def processRow (p : ℚ) (st : Registry) (g : Rng) (r : Row) : Row × Registry × Rng :=
  let (v, g) := modifyRideId p g (rowGet r .ride_id)
  let r := rowSet r .ride_id v
  let (r, g) :=
    if rowGet r .rideable_type = .null then (r, g)
    else
      let (v, g) := modifyRideableType p g (rowGet r .rideable_type)
      (rowSet r .rideable_type v, g)
  let (r, g) :=
    if rowGet r .started_at = .null ∨ rowGet r .ended_at = .null then (r, g)
    else
      let (se, g) := modifyDatetime p g (rowGet r .started_at) (rowGet r .ended_at)
      (rowSet (rowSet r .started_at se.1) .ended_at se.2, g)
  let (r, st, g) :=
    if rowGet r .start_station_name = .null then (r, st, g)
    else
      let (ni, st, g) :=
        modifyStationName p st g (rowGet r .start_station_name) (rowGet r .start_station_id)
      (rowSet (rowSet r .start_station_name ni.1) .start_station_id ni.2, st, g)
  let (r, st, g) :=
    if rowGet r .end_station_name = .null then (r, st, g)
    else
      let (ni, st, g) :=
        modifyStationName p st g (rowGet r .end_station_name) (rowGet r .end_station_id)
      (rowSet (rowSet r .end_station_name ni.1) .end_station_id ni.2, st, g)
  let (r, st, g) :=
    if rowGet r .start_lat = .null then (r, st, g)
    else
      let (ll, st, g) :=
        modifyCoordinates p st g (rowGet r .start_lat) (rowGet r .start_lng)
          (rowGet r .start_station_name) (rowGet r .start_station_id)
      (rowSet (rowSet r .start_lat ll.1) .start_lng ll.2, st, g)
  let (r, st, g) :=
    if rowGet r .end_lat = .null then (r, st, g)
    else
      let (ll, st, g) :=
        modifyCoordinates p st g (rowGet r .end_lat) (rowGet r .end_lng)
          (rowGet r .end_station_name) (rowGet r .end_station_id)
      (rowSet (rowSet r .end_lat ll.1) .end_lng ll.2, st, g)
  let (r, g) :=
    if rowGet r .member_casual = .null then (r, g)
    else
      let (v, g) := modifyMemberType p g (rowGet r .member_casual)
      (rowSet r .member_casual v, g)
  (r, st, g)

/-- The row loop, threading the registry and the random source in row
order. -/
def processRows (p : ℚ) (st : Registry) (g : Rng) : List Row → List Row × Registry × Rng
  | [] => ([], st, g)
  | r :: t =>
    let (r', st', g') := processRow p st g r
    let (rest, st'', g'') := processRows p st' g' t
    (r' :: rest, st'', g'')

/-- `DataErrorGenerator.introduce_errors` (source lines 200–282): the
missing-value injection, the id `astype(str)` pass, then the per-row
mutation pass.  `st` is the engine's registry (`self.station_variants`)
on entry; the final registry and random source are returned alongside
the table. -/
def introduceErrors (p pct : ℚ) (st : Registry) (g : Rng) (df : DF) :
    DF × Registry × Rng :=
  let (df1, g) := injectEmpty pct g df
  let df2 := astypeIds df1
  processRows p st g df2

/-- The observable effect of one call to `introduce_errors` on its
argument: the source's first statement is `df_with_errors = df.copy()`
and every subsequent write targets the copy, so the argument observed
after the call equals its original value while the corrupted copy is
returned. -/
structure CallResult where
  output : DF
  inputAfter : DF
  deriving DecidableEq

/-- One call of `introduce_errors` viewed together with the state of the
passed table after the call. -/
def introduceErrorsCall (p pct : ℚ) (st : Registry) (g : Rng) (df : DF) : CallResult :=
  { output := (introduceErrors p pct st g df).1, inputAfter := df }

/-! ## Concrete oracles and rows used by witnesses and counterexamples -/

/-- The empty oracle (every draw takes its default). -/
def g0 : Rng := ⟨[], [], []⟩

/-- The rational 1/2, in constructor form. -/
def qHalf : ℚ := ⟨1, 2, by decide, by decide⟩

/-- The rational 3/4, in constructor form. -/
def q34 : ℚ := ⟨3, 4, by decide, by decide⟩

/-! ## Basic lemmas about the data model -/

theorem rowGet_rowSet_same (r : Row) (c : Col) (v : Cell) :
    rowGet (rowSet r c v) c = v := by
  cases c <;> rfl

theorem rowGet_rowSet_other (r : Row) (c c' : Col) (v : Cell) (h : c' ≠ c) :
    rowGet (rowSet r c v) c' = rowGet r c' := by
  cases c <;> cases c' <;> first | rfl | exact absurd rfl h

theorem regFind_append_of_none (st : Registry) (k : Cell) (v : VariantSet)
    (h : regFind st k = none) : regFind (st ++ [(k, v)]) k = some v := by
  induction st with
  | nil => simp [regFind]
  | cons kv t ih =>
    obtain ⟨a, b⟩ := kv
    simp only [regFind] at h
    simp only [List.cons_append, regFind]
    by_cases hk : a = k
    · rw [if_pos hk] at h; exact absurd h (by simp)
    · rw [if_neg hk] at h ⊢; exact ih h

/-! ## Registry resolution lemmas -/

theorem getStationVariants_cached (st : Registry) (g : Rng)
    (name sid lat lng : Cell) (vs : VariantSet)
    (h : name ≠ Cell.null) (hf : regFind st name = some vs) :
    getStationVariants st g name sid lat lng = (vs, st, g) := by
  simp [getStationVariants, h, hf]

theorem getStationVariants_new (st : Registry) (g : Rng)
    (name sid lat lng : Cell)
    (h : name ≠ Cell.null) (hf : regFind st name = none) :
    getStationVariants st g name sid lat lng =
      ((mkVariantSet g name sid lat lng).1,
       st ++ [(name, (mkVariantSet g name sid lat lng).1)],
       (mkVariantSet g name sid lat lng).2) := by
  rcases hmk : mkVariantSet g name sid lat lng with ⟨vs, g1⟩
  simp [getStationVariants, h, hf, hmk]

/-- Claim C1: for every non-missing entity name, the registry creates
that entity's variant set at most once — after any resolve of the name,
the name is registered with exactly the returned set, and every later
resolve of the same name, with any newly supplied id/lat/lng, returns
exactly the cached set while leaving the registry and the random source
untouched; hence any two rows referencing the same canonical name draw
from identical variant pools. -/
theorem c1_registry_resolves_once (st : Registry) (g g' : Rng)
    (name sid lat lng : Cell) (h : name ≠ Cell.null) :
    regFind (getStationVariants st g name sid lat lng).2.1 name =
      some (getStationVariants st g name sid lat lng).1 ∧
    ∀ sid' lat' lng',
      getStationVariants (getStationVariants st g name sid lat lng).2.1 g' name sid' lat' lng' =
        ((getStationVariants st g name sid lat lng).1,
         (getStationVariants st g name sid lat lng).2.1, g') := by
  have key : regFind (getStationVariants st g name sid lat lng).2.1 name =
      some (getStationVariants st g name sid lat lng).1 := by
    cases hf : regFind st name with
    | some vs => rw [getStationVariants_cached st g name sid lat lng vs h hf]; exact hf
    | none =>
      rw [getStationVariants_new st g name sid lat lng h hf]
      exact regFind_append_of_none st name _ hf
  refine ⟨key, fun sid' lat' lng' => ?_⟩
  exact getStationVariants_cached _ g' name sid' lat' lng' _ h key

/-- Witness for C1 at a concrete resolve. -/
theorem c1_registry_resolves_once_witness :
    Cell.str "a" ≠ Cell.null ∧
    (regFind (getStationVariants [] g0 (Cell.str "a") (Cell.str "1")
        Cell.null Cell.null).2.1 (Cell.str "a") =
      some (getStationVariants [] g0 (Cell.str "a") (Cell.str "1")
        Cell.null Cell.null).1 ∧
    ∀ sid' lat' lng',
      getStationVariants (getStationVariants [] g0 (Cell.str "a") (Cell.str "1")
          Cell.null Cell.null).2.1 g0 (Cell.str "a") sid' lat' lng' =
        ((getStationVariants [] g0 (Cell.str "a") (Cell.str "1")
            Cell.null Cell.null).1,
         (getStationVariants [] g0 (Cell.str "a") (Cell.str "1")
            Cell.null Cell.null).2.1, g0)) :=
  ⟨by decide,
   c1_registry_resolves_once [] g0 g0 (Cell.str "a") (Cell.str "1")
     Cell.null Cell.null (by decide)⟩

/-! ## Shape lemmas and Claim C5 -/

theorem length_mapIdxGo (f : Nat → Row → Row) (i : Nat) (l : List Row) :
    (mapIdxGo f i l).length = l.length := by
  induction l generalizing i with
  | nil => rfl
  | cons r t ih => simp [mapIdxGo, ih]

theorem length_injectColumn (c : Col) (idxs : List Nat) (df : DF) :
    (injectColumn c idxs df).length = df.length :=
  length_mapIdxGo _ 0 df

theorem length_injectCols (L : List Col) (n k : Nat) (df : DF) (g : Rng) :
    (injectCols n k L (df, g)).1.length = df.length := by
  induction L generalizing df g with
  | nil => rfl
  | cons c cs ih =>
    simp only [injectCols]
    by_cases hc : c = Col.ride_id ∨ c = Col.start_station_id ∨ c = Col.end_station_id
    · rw [if_pos hc]; exact ih df g
    · rw [if_neg hc]
      rcases hs : sampleIdxs n k g with ⟨idxs, g'⟩
      simp only [hs]
      rw [ih (injectColumn c idxs df) g', length_injectColumn]

theorem length_processRows (p : ℚ) (st : Registry) (g : Rng) (l : List Row) :
    (processRows p st g l).1.length = l.length := by
  induction l generalizing st g with
  | nil => rfl
  | cons r t ih =>
    simp only [processRows]
    rcases hr : processRow p st g r with ⟨r', st', g'⟩
    rcases ht : processRows p st' g' t with ⟨rest, st'', g''⟩
    simp only [hr, ht, List.length_cons]
    have := ih st' g'
    rw [ht] at this
    simp only [List.length_cons] at this ⊢
    exact congrArg (· + 1) this

/-- Claim C5: the pipeline never drops or adds rows or columns — for
every input table, `introduce_errors` returns a table with the same row
count and the same column set. -/
theorem c5_shape_invariance (p pct : ℚ) (st : Registry) (g : Rng) (df : DF) :
    (introduceErrors p pct st g df).1.length = df.length ∧
    dfColumns (introduceErrors p pct st g df).1 = dfColumns df := by
  refine ⟨?_, by simp only [dfColumns]⟩
  simp only [introduceErrors, injectEmpty]
  rcases hi : injectCols df.length (numEmpty df.length pct) allCols (df, g) with ⟨df1, g1⟩
  simp only [hi]
  rw [length_processRows]
  have h1 : (astypeIds df1).length = df1.length := List.length_map _ _
  have h2 := length_injectCols allCols df.length (numEmpty df.length pct) df g
  rw [hi] at h2
  rw [h1, h2]

/-! ## Claim C10: in-place corruption -/

set_option maxHeartbeats 2000000 in
/-- Counterexample to Claim C10 as stated: the table passed to
`introduce_errors` is observably unchanged after the call (because the
source's first statement copies it), while the returned table differs
from it — so the input object is not itself corrupted.  Input: a
single all-missing row, error probability 0, empty fraction 0; the
returned copy differs because the id `astype(str)` pass rewrites the
missing ids to the string `"nan"`. -/
theorem c10_counterexample :
    (introduceErrorsCall 0 0 [] g0 [nullRow]).output ≠ [nullRow] ∧
    (introduceErrorsCall 0 0 [] g0 [nullRow]).inputAfter = [nullRow] := by
  constructor
  · decide
  · rfl

/-- Claim C10 (amended): `introduce_errors` first copies the input
table and corrupts the copy; the dataset object passed in is left
unchanged by the call and the corrupted copy is returned. -/
theorem c10_input_unchanged (p pct : ℚ) (st : Registry) (g : Rng) (df : DF) :
    (introduceErrorsCall p pct st g df).inputAfter = df ∧
    (introduceErrorsCall p pct st g df).output = (introduceErrors p pct st g df).1 := by
  simp [introduceErrorsCall]

/-! ## Claim C4: null propagation and the id `astype(str)` pass -/

set_option maxHeartbeats 2000000 in
/-- Claim C4 (code bug): on a row whose `start_station_id` and
`end_station_id` are the missing marker, the returned table holds the
non-missing string `"nan"` in both id columns — the `astype(str)` pass
manufactures a value from null, contradicting the source's own comment
(`# Convert to string but preserve NaN`, with the restoring line
commented out). -/
theorem c4_missing_id_becomes_nan :
    cellAt (introduceErrors 0 0 [] g0 [nullRow]).1 0 Col.start_station_id = Cell.str "nan" ∧
    cellAt (introduceErrors 0 0 [] g0 [nullRow]).1 0 Col.end_station_id = Cell.str "nan" ∧
    Cell.str "nan" ≠ Cell.null := by
  decide

/-! ## Claim C2: the coordinate stage's entity key -/

/-- The row exhibiting the C2 divergence: start station "main st",
id "100", coordinates present; everything else missing. -/
def rowC2 : Row :=
  { nullRow with
    start_station_name := .str "main st", start_station_id := .str "100",
    start_lat := .num ⟨389, 10, by decide, by decide⟩,
    start_lng := .num (-77) }

/-- Oracle for the C2 run (error probability 1, so every gate fires):
the name mutation picks variant index 2 (the upper-cased name), the id
mutation keeps the original id, and the remaining draws are 0. -/
def gC2 : Rng := ⟨[], [0, 2, 0, 0, 0], []⟩

set_option maxHeartbeats 4000000 in
/-- Claim C2 (code bug): the coordinate-mutation stage does not resolve
under the entity key the entity-mutation stage used.  On `rowC2` the
name stage resolves "main st" (registering it, with coordinate family
`[(null, null)]` since no coordinates are passed) and then writes the
mutated name "MAIN ST" back into the row; the coordinate stage reads
the mutated cell and resolves "MAIN ST", creating a second registry
entry for the same canonical entity — the registry ends the run with
both keys registered. -/
theorem c2_coordinate_stage_uses_mutated_key :
    cellAt (introduceErrors 1 0 [] gC2 [rowC2]).1 0 Col.start_station_name =
      Cell.str "MAIN ST" ∧
    (regFind (introduceErrors 1 0 [] gC2 [rowC2]).2.1 (Cell.str "MAIN ST")).isSome = true ∧
    (regFind (introduceErrors 1 0 [] gC2 [rowC2]).2.1 (Cell.str "main st")).map
      VariantSet.coordinates = some [(Cell.null, Cell.null)] := by
  refine ⟨by decide, by decide, by decide⟩

/-! ## Claim C6: station registration without coordinates -/

theorem mkVariantSet_coords_null (g : Rng) (name sid : Cell) :
    (mkVariantSet g name sid Cell.null Cell.null).1.coordinates =
      [(Cell.null, Cell.null)] := by
  rcases hr : randInt 3 4 g with ⟨nv, g1⟩
  simp [mkVariantSet, hr]

theorem chooseFrom_singleton (x : α) (d : α) (g : Rng) :
    (chooseFrom [x] d g).1 = x := by
  rcases hn : popN g with ⟨n, g1⟩
  simp [chooseFrom, hn, Nat.mod_one]

theorem modifyStationName_registry (p : ℚ) (st : Registry) (g : Rng)
    (name sid : Cell) (h1 : name ≠ Cell.null) (h2 : sid ≠ Cell.null) :
    (modifyStationName p st g name sid).2.1 =
      (getStationVariants st g name sid Cell.null Cell.null).2.1 := by
  simp only [modifyStationName]
  rw [if_neg (by simp [h1, h2])]

/-- Claim C6: when the name/id stage registers a station (name and id
present) it calls the registry without coordinates, so the cached
coordinate family of that name is the single pair `(null, null)`; if
the coordinate-mutation gate then fires for that same (unmutated) name,
the row's present coordinates are replaced by `(null, null)` —
coordinate mutation can erase present coordinates. -/
theorem c6_registration_without_coords (p : ℚ) (st : Registry) (g g2 : Rng)
    (s : String) (sid lat lng sid2 : Cell)
    (hsid : sid ≠ Cell.null)
    (hreg : regFind st (Cell.str s) = none)
    (hlat : lat ≠ Cell.null) (hlng : lng ≠ Cell.null)
    (hg : (shouldErr p g2).1 = true) :
    (regFind (modifyStationName p st g (Cell.str s) sid).2.1 (Cell.str s)).map
        VariantSet.coordinates = some [(Cell.null, Cell.null)] ∧
    (modifyCoordinates p (modifyStationName p st g (Cell.str s) sid).2.1 g2
        lat lng (Cell.str s) sid2).1 = (Cell.null, Cell.null) := by
  have hs : (Cell.str s : Cell) ≠ Cell.null := by simp
  have hstreg : (modifyStationName p st g (Cell.str s) sid).2.1 =
      st ++ [(Cell.str s, (mkVariantSet g (Cell.str s) sid Cell.null Cell.null).1)] := by
    rw [modifyStationName_registry p st g (Cell.str s) sid hs hsid,
      getStationVariants_new st g (Cell.str s) sid Cell.null Cell.null hs hreg]
  have hfind : regFind (modifyStationName p st g (Cell.str s) sid).2.1 (Cell.str s) =
      some (mkVariantSet g (Cell.str s) sid Cell.null Cell.null).1 := by
    rw [hstreg]
    exact regFind_append_of_none st (Cell.str s) _ hreg
  constructor
  · simp [hfind, mkVariantSet_coords_null]
  · simp only [modifyCoordinates]
    rw [if_neg (by simp [hlat, hlng])]
    rcases hb : shouldErr p g2 with ⟨b, g3⟩
    rw [hb] at hg
    simp only [hb]
    cases b
    · exact absurd hg (by simp)
    · simp only [reduceIte]
      rw [getStationVariants_cached _ g3 (Cell.str s) sid2 lat lng _ hs hfind]
      simp only [mkVariantSet_coords_null]
      exact chooseFrom_singleton (Cell.null, Cell.null) (Cell.null, Cell.null) g3

/-- Witness for C6 at a concrete station. -/
theorem c6_registration_without_coords_witness :
    ((Cell.str "1" : Cell) ≠ Cell.null ∧
     regFind [] (Cell.str "a") = none ∧
     (Cell.num 1 : Cell) ≠ Cell.null ∧ (Cell.num 2 : Cell) ≠ Cell.null ∧
     (shouldErr 1 g0).1 = true) ∧
    ((regFind (modifyStationName 1 [] g0 (Cell.str "a") (Cell.str "1")).2.1
        (Cell.str "a")).map VariantSet.coordinates = some [(Cell.null, Cell.null)] ∧
     (modifyCoordinates 1 (modifyStationName 1 [] g0 (Cell.str "a") (Cell.str "1")).2.1 g0
        (Cell.num 1) (Cell.num 2) (Cell.str "a") (Cell.str "1")).1 =
       (Cell.null, Cell.null)) :=
  ⟨⟨by decide, by decide, by decide, by decide, by decide⟩,
   c6_registration_without_coords 1 [] g0 g0 "a" (Cell.str "1") (Cell.num 1) (Cell.num 2)
     (Cell.str "1") (by decide) (by decide) (by decide) (by decide) (by decide)⟩

/-! ## Claim C7: the coordinate variant family of a new entity -/

theorem uniformPM1_mem (g : Rng) :
    -1 ≤ (uniformPM1 g).1 ∧ (uniformPM1 g).1 ≤ 1 := by
  rcases hq : popQ g with ⟨q, g1⟩
  simp only [uniformPM1, hq]
  split_ifs with h1 h2
  · exact ⟨le_refl _, by norm_num⟩
  · exact ⟨by norm_num, le_refl _⟩
  · exact ⟨le_of_not_lt h1, le_of_not_lt h2⟩

theorem mkJitter_length (a b : ℚ) (n : Nat) (g : Rng) :
    (mkJitter a b n g).1.length = n := by
  induction n generalizing g with
  | zero => rfl
  | succ n ih =>
    simp only [mkJitter]
    rcases hu : uniformPM1 g with ⟨u, g1⟩
    rcases hv : uniformPM1 g1 with ⟨v, g2⟩
    rcases hr : mkJitter a b n g2 with ⟨rest, g3⟩
    have := ih g2
    rw [hr] at this
    simp [hu, hv, hr, this]

theorem mkJitter_mem (a b : ℚ) (n : Nat) (g : Rng) (pq : Cell × Cell)
    (h : pq ∈ (mkJitter a b n g).1) :
    ∃ u v : ℚ, pq = (Cell.num (a + u), Cell.num (b + v)) ∧
      -1 ≤ u ∧ u ≤ 1 ∧ -1 ≤ v ∧ v ≤ 1 := by
  induction n generalizing g with
  | zero => simp [mkJitter] at h
  | succ n ih =>
    simp only [mkJitter] at h
    rcases hu : uniformPM1 g with ⟨u, g1⟩
    rcases hv : uniformPM1 g1 with ⟨v, g2⟩
    rcases hr : mkJitter a b n g2 with ⟨rest, g3⟩
    rw [hu, hv, hr] at h
    simp only [List.mem_cons] at h
    rcases h with h | h
    · refine ⟨u, v, h, ?_, ?_, ?_, ?_⟩
      · have := uniformPM1_mem g; rw [hu] at this; exact this.1
      · have := uniformPM1_mem g; rw [hu] at this; exact this.2
      · have := uniformPM1_mem g1; rw [hv] at this; exact this.1
      · have := uniformPM1_mem g1; rw [hv] at this; exact this.2
    · have := ih g2
      rw [hr] at this
      exact this h

/-- Claim C7 (amended): for every entity registered while both
coordinates are present and numeric, the created coordinate variant set
consists of 3–4 jittered points — the original point is not a member of
the set (except by coincidence of the jitter draws) — each lying within
±1 degree latitude and ±1 degree longitude of the original point. -/
theorem c7_amended (st : Registry) (g : Rng) (name sid : Cell) (a b : ℚ)
    (h : name ≠ Cell.null) (hreg : regFind st name = none) :
    ((getStationVariants st g name sid (Cell.num a) (Cell.num b)).1.coordinates.length = 3 ∨
     (getStationVariants st g name sid (Cell.num a) (Cell.num b)).1.coordinates.length = 4) ∧
    ∀ pq ∈ (getStationVariants st g name sid (Cell.num a) (Cell.num b)).1.coordinates,
      ∃ u v : ℚ, pq = (Cell.num u, Cell.num v) ∧ |u - a| ≤ 1 ∧ |v - b| ≤ 1 := by
  rw [getStationVariants_new st g name sid (Cell.num a) (Cell.num b) h hreg]
  rcases hri : randInt 3 4 g with ⟨nv, g1⟩
  have hcoords : (mkVariantSet g name sid (Cell.num a) (Cell.num b)).1.coordinates =
      (mkJitter a b nv g1).1 := by
    rcases hj : mkJitter a b nv g1 with ⟨coords, g2⟩
    simp [mkVariantSet, hri, hj]
  rw [hcoords]
  constructor
  · rw [mkJitter_length]
    rcases hpn : popN g with ⟨n, g2⟩
    have hnv : nv = 3 + n % 2 := by
      have : randInt 3 4 g = (3 + n % 2, g2) := by simp [randInt, hpn]
      rw [hri] at this
      exact (Prod.mk.injEq _ _ _ _ ▸ this).1
    omega
  · intro pq hpq
    obtain ⟨u, v, rfl, hu1, hu2, hv1, hv2⟩ := mkJitter_mem a b nv g1 pq hpq
    refine ⟨a + u, b + v, rfl, ?_, ?_⟩
    · rw [add_sub_cancel_left, abs_le]; exact ⟨hu1, hu2⟩
    · rw [add_sub_cancel_left, abs_le]; exact ⟨hv1, hv2⟩

/-- Witness for C7 (amended) at a concrete registration. -/
theorem c7_amended_witness :
    (Cell.str "a" ≠ Cell.null ∧ regFind [] (Cell.str "a") = none) ∧
    (((getStationVariants [] g0 (Cell.str "a") (Cell.str "1")
        (Cell.num 10) (Cell.num 20)).1.coordinates.length = 3 ∨
      (getStationVariants [] g0 (Cell.str "a") (Cell.str "1")
        (Cell.num 10) (Cell.num 20)).1.coordinates.length = 4) ∧
     ∀ pq ∈ (getStationVariants [] g0 (Cell.str "a") (Cell.str "1")
        (Cell.num 10) (Cell.num 20)).1.coordinates,
       ∃ u v : ℚ, pq = (Cell.num u, Cell.num v) ∧ |u - 10| ≤ 1 ∧ |v - 20| ≤ 1) :=
  ⟨⟨by decide, by decide⟩,
   c7_amended [] g0 (Cell.str "a") (Cell.str "1") 10 20 (by decide) (by decide)⟩

/-- Oracle for the C7 counterexample: three coordinate variants, each
jittered by the full +1 degree in both axes. -/
def gC7 : Rng := ⟨[1, 1, 1, 1, 1, 1], [0], []⟩

/-- Counterexample to Claim C7 as stated: the claim says the coordinate
variant set is "the original point plus 2–3 jittered points", but the
source generates only jittered points — on this registration the set
has three points and the original `(10, 20)` is not among them. -/
theorem c7_counterexample :
    (Cell.num 10, Cell.num 20) ∉
      (getStationVariants [] gC7 (Cell.str "a") (Cell.str "1")
        (Cell.num 10) (Cell.num 20)).1.coordinates ∧
    (getStationVariants [] gC7 (Cell.str "a") (Cell.str "1")
        (Cell.num 10) (Cell.num 20)).1.coordinates.length = 3 := by
  have h : (getStationVariants [] gC7 (Cell.str "a") (Cell.str "1")
      (Cell.num 10) (Cell.num 20)).1.coordinates =
      [(Cell.num (10 + 1), Cell.num (20 + 1)), (Cell.num (10 + 1), Cell.num (20 + 1)),
       (Cell.num (10 + 1), Cell.num (20 + 1))] := rfl
  rw [h]
  refine ⟨?_, rfl⟩
  intro hmem
  simp only [List.mem_cons, List.not_mem_nil, or_false, or_self,
    Prod.mk.injEq, Cell.num.injEq] at hmem
  have : (10 : ℚ) = 10 + 1 := hmem.1
  norm_num at this

/-! ## Claim C9: behaviour on malformed timestamps -/

theorem formatDatetime_malformed (g : Rng) (s : String)
    (hs : parseCanonical s = none) :
    formatDatetime g (Cell.str s) = (Cell.str s, g) := by
  simp [formatDatetime, parseCell, hs]

/-- Claim C9 (amended): a timestamp string that does not parse under
the canonical format is returned unchanged by the reformat mutator, and
a malformed start timestamp always comes back unchanged from
`_modify_datetime` (the end-before-start step parses the start, fails,
and the `except` clause returns the current values); when both
timestamps are malformed the pair is returned entirely unchanged.  No
exception escapes.  However, a malformed end timestamp alone is not
protected: when the start parses and the end-before-start gate fires,
the end is overwritten (see the counterexample). -/
theorem c9_amended (p : ℚ) (g : Rng) (s e : String)
    (hs : parseCanonical s = none) :
    (∀ g', formatDatetime g' (Cell.str s) = (Cell.str s, g')) ∧
    (modifyDatetime p g (Cell.str s) (Cell.str e)).1.1 = Cell.str s ∧
    (parseCanonical e = none →
      (modifyDatetime p g (Cell.str s) (Cell.str e)).1 = (Cell.str s, Cell.str e)) := by
  refine ⟨fun g' => formatDatetime_malformed g' s hs, ?_⟩
  simp only [modifyDatetime]
  rw [if_neg (by simp)]
  rcases hb1 : shouldErr p g with ⟨b1, g1⟩
  simp only [hb1]
  cases b1
  · simp only [mdFormatStage, Bool.false_eq_true, if_false]
    rcases hb2 : shouldErr p g1 with ⟨b2, g2⟩
    simp only [hb2]
    cases b2
    · simp [mdBackdateStage]
    · simp [mdBackdateStage, parseCell, hs]
  · simp only [mdFormatStage, if_true]
    rw [formatDatetime_malformed g1 s hs]
    rcases hfe : formatDatetime g1 (Cell.str e) with ⟨e1, g2⟩
    simp only [hfe]
    rcases hb2 : shouldErr p g2 with ⟨b2, g3⟩
    simp only [hb2]
    constructor
    · cases b2
      · simp [mdBackdateStage]
      · simp [mdBackdateStage, parseCell, hs]
    · intro he
      rw [formatDatetime_malformed g1 e he] at hfe
      have he1 : e1 = Cell.str e := by
        have := hfe.symm
        exact (Prod.mk.injEq _ _ _ _ ▸ this).1
      subst he1
      cases b2
      · simp [mdBackdateStage]
      · simp [mdBackdateStage, parseCell, hs]

/-- Witness for C9 (amended) at a concrete malformed pair. -/
theorem c9_amended_witness :
    parseCanonical "garbage" = none ∧
    ((∀ g', formatDatetime g' (Cell.str "garbage") = (Cell.str "garbage", g')) ∧
     (modifyDatetime 1 g0 (Cell.str "garbage") (Cell.str "also bad")).1.1 =
       Cell.str "garbage" ∧
     (parseCanonical "also bad" = none →
       (modifyDatetime 1 g0 (Cell.str "garbage") (Cell.str "also bad")).1 =
         (Cell.str "garbage", Cell.str "also bad"))) :=
  ⟨by decide, c9_amended 1 g0 "garbage" "also bad" (by decide)⟩

/-- Oracle for the C9 counterexample: the reformat gate draws 3/4
(above the error probability 1/2, so it does not fire) and the
end-before-start gate draws 0 (it fires); the delta draws pick 1 hour. -/
def gC9 : Rng := ⟨[q34, 0], [0, 0, 0, 0], []⟩

set_option maxHeartbeats 2000000 in
/-- Counterexample to Claim C9 as stated: the malformed end timestamp
"garbage" fed to the temporal mutator is not returned unchanged — the
start parses, the end-before-start gate fires, and the end is
overwritten with the canonical start-minus-delta value. -/
theorem c9_counterexample :
    parseCanonical "garbage" = none ∧
    (modifyDatetime qHalf gC9 (Cell.str "2024-01-15 12:00:00") (Cell.str "garbage")).1 =
      (Cell.str "2024-01-15 12:00:00", Cell.str "2024-01-15 11:00:00") ∧
    (Cell.str "2024-01-15 11:00:00" : Cell) ≠ Cell.str "garbage" := by
  refine ⟨by decide, by decide, by decide⟩

/-! ## Digit-structure lemmas for the formatted timestamps -/

theorem digitChar_isDigit (n : Nat) (h : n < 10) : (digitChar n).isDigit = true := by
  interval_cases n <;> decide

theorem natDigits_all_digits : ∀ (fuel n : Nat), ∀ c ∈ natDigits fuel n, c.isDigit = true := by
  intro fuel
  induction fuel with
  | zero => intro n c hc; simp [natDigits] at hc
  | succ fuel ih =>
    intro n c hc
    simp only [natDigits] at hc
    by_cases hn : n < 10
    · rw [if_pos hn] at hc
      simp only [List.mem_singleton] at hc
      subst hc; exact digitChar_isDigit n hn
    · rw [if_neg hn] at hc
      rcases List.mem_append.mp hc with hc | hc
      · exact ih (n / 10) c hc
      · simp only [List.mem_singleton] at hc
        subst hc; exact digitChar_isDigit _ (Nat.mod_lt _ (by norm_num))

theorem natDigits_length_pos (fuel n : Nat) (h : 0 < fuel) :
    0 < (natDigits fuel n).length := by
  obtain ⟨f, rfl⟩ : ∃ f, fuel = f + 1 := ⟨fuel - 1, by omega⟩
  simp only [natDigits]
  by_cases hn : n < 10
  · rw [if_pos hn]; simp
  · rw [if_neg hn]; simp

theorem natDigits_length_ge : ∀ (k fuel n : Nat), 10 ^ k ≤ n → n < fuel →
    k + 1 ≤ (natDigits fuel n).length := by
  intro k
  induction k with
  | zero => intro fuel n hk hf; exact natDigits_length_pos fuel n (by omega)
  | succ k ih =>
    intro fuel n hk hf
    have h10 : 10 ≤ n := le_trans (by calc 10 = 10 ^ 1 := by norm_num
                                        _ ≤ 10 ^ (k + 1) := Nat.pow_le_pow_right (by norm_num) (by omega)) hk
    obtain ⟨f, rfl⟩ : ∃ f, fuel = f + 1 := ⟨fuel - 1, by omega⟩
    simp only [natDigits]
    rw [if_neg (by omega)]
    rw [List.length_append, List.length_singleton]
    have hdiv : 10 ^ k ≤ n / 10 := by
      rw [Nat.le_div_iff_mul_le (by norm_num)]
      calc 10 ^ k * 10 = 10 ^ (k + 1) := by ring
        _ ≤ n := hk
    have hlt : n / 10 < f := by
      have := Nat.div_lt_self (by omega : 0 < n) (by norm_num : 1 < 10)
      omega
    have := ih f (n / 10) hdiv hlt
    omega

theorem natStr_all_digits (n : Nat) : ∀ c ∈ (natStr n).data, c.isDigit = true := by
  intro c hc
  exact natDigits_all_digits (n + 1) n c hc

theorem natStr_length_ge (k n : Nat) (h : 10 ^ k ≤ n) :
    k + 1 ≤ (natStr n).data.length :=
  natDigits_length_ge k (n + 1) n h (by omega)

theorem natStr_length_pos (n : Nat) : 0 < (natStr n).data.length :=
  natDigits_length_pos (n + 1) n (by omega)

theorem pad2_all_digits (n : Nat) : ∀ c ∈ (pad2 n).data, c.isDigit = true := by
  intro c hc
  simp only [pad2] at hc
  by_cases hn : n < 10
  · rw [if_pos hn] at hc
    simp only [List.mem_cons, List.not_mem_nil, or_false] at hc
    rcases hc with hc | hc
    · subst hc; decide
    · subst hc; exact digitChar_isDigit n hn
  · rw [if_neg hn] at hc
    exact natStr_all_digits n c hc

theorem pad2_length_ge (n : Nat) : 2 ≤ (pad2 n).data.length := by
  simp only [pad2]
  by_cases hn : n < 10
  · rw [if_pos hn]
    simp
  · rw [if_neg hn]
    exact natStr_length_ge 1 n (by omega)

/-- `(a ++ b).data = a.data ++ b.data` for strings. -/
theorem strData_append (a b : String) : (a ++ b).data = a.data ++ b.data := rfl

theorem pad4_all_digits (y : Int) (hy : 0 ≤ y) :
    ∀ c ∈ (pad4 y).data, c.isDigit = true := by
  intro c hc
  simp only [pad4] at hc
  rw [if_neg (by omega)] at hc
  simp only [strData_append, List.nil_append] at hc
  have h000 : ("000" : String).data = ['0', '0', '0'] := rfl
  have h00 : ("00" : String).data = ['0', '0'] := rfl
  have h0 : ("0" : String).data = ['0'] := rfl
  by_cases h1 : y.natAbs < 10
  · rw [if_pos h1, strData_append, h000] at hc
    simp only [List.mem_append, List.mem_cons, List.not_mem_nil, or_false] at hc
    rcases hc with (hc | hc | hc) | hc
    · subst hc; decide
    · subst hc; decide
    · subst hc; decide
    · exact natStr_all_digits _ c hc
  · rw [if_neg h1] at hc
    by_cases h2 : y.natAbs < 100
    · rw [if_pos h2, strData_append, h00] at hc
      simp only [List.mem_append, List.mem_cons, List.not_mem_nil, or_false] at hc
      rcases hc with (hc | hc) | hc
      · subst hc; decide
      · subst hc; decide
      · exact natStr_all_digits _ c hc
    · rw [if_neg h2] at hc
      by_cases h3 : y.natAbs < 1000
      · rw [if_pos h3, strData_append, h0] at hc
        simp only [List.mem_append, List.mem_cons, List.not_mem_nil, or_false] at hc
        rcases hc with hc | hc
        · subst hc; decide
        · exact natStr_all_digits _ c hc
      · rw [if_neg h3] at hc
        exact natStr_all_digits _ c hc

theorem pad4_length_ge (y : Int) (hy : 0 ≤ y) : 4 ≤ (pad4 y).data.length := by
  simp only [pad4]
  rw [if_neg (by omega)]
  simp only [strData_append, List.nil_append]
  have h000 : ("000" : String).data = ['0', '0', '0'] := rfl
  have h00 : ("00" : String).data = ['0', '0'] := rfl
  have h0 : ("0" : String).data = ['0'] := rfl
  by_cases h1 : y.natAbs < 10
  · rw [if_pos h1, strData_append, h000, List.length_append]
    have := natStr_length_pos y.natAbs
    simp only [List.length_cons, List.length_nil]
    omega
  · rw [if_neg h1]
    by_cases h2 : y.natAbs < 100
    · rw [if_pos h2, strData_append, h00, List.length_append]
      have := natStr_length_ge 1 y.natAbs (by omega)
      simp only [List.length_cons, List.length_nil]
      omega
    · rw [if_neg h2]
      by_cases h3 : y.natAbs < 1000
      · rw [if_pos h3, strData_append, h0, List.length_append]
        have := natStr_length_ge 2 y.natAbs (by omega)
        simp only [List.length_cons, List.length_nil]
        omega
      · rw [if_neg h3]
        exact natStr_length_ge 3 y.natAbs (by omega)

theorem pad4_neg (y : Int) (hy : y < 0) :
    ∃ rest, (pad4 y).data = '-' :: rest := by
  simp only [pad4]
  rw [if_pos hy]
  exact ⟨_, rfl⟩

/-! ## `digitRun` on shaped inputs -/

theorem digitRun_all (A : List Char) (hA : ∀ c ∈ A, c.isDigit = true) :
    digitRun A = (A, []) := by
  induction A with
  | nil => rfl
  | cons a A ih =>
    have ha : a.isDigit = true := hA a (by simp)
    have ih' := ih (fun c hc => hA c (by simp [hc]))
    simp only [digitRun] at ih' ⊢
    simp [List.takeWhile_cons, List.dropWhile_cons, ha,
      (Prod.mk.injEq _ _ _ _ ▸ ih').1, (Prod.mk.injEq _ _ _ _ ▸ ih').2]

theorem digitRun_cons_not (c : Char) (B : List Char) (hc : c.isDigit = false) :
    digitRun (c :: B) = ([], c :: B) := by
  simp [digitRun, List.takeWhile_cons, List.dropWhile_cons, hc]

theorem digitRun_append_cons (A : List Char) (c : Char) (B : List Char)
    (hA : ∀ x ∈ A, x.isDigit = true) (hc : c.isDigit = false) :
    digitRun (A ++ c :: B) = (A, c :: B) := by
  induction A with
  | nil => simpa using digitRun_cons_not c B hc
  | cons a A ih =>
    have ha : a.isDigit = true := hA a (by simp)
    have ih' := ih (fun x hx => hA x (by simp [hx]))
    simp only [digitRun] at ih' ⊢
    simp [List.takeWhile_cons, List.dropWhile_cons, ha,
      (Prod.mk.injEq _ _ _ _ ▸ ih').1, (Prod.mk.injEq _ _ _ _ ▸ ih').2]

/-! ## Reformatted timestamps never parse canonically -/

theorem reqYear_cons_not (c : Char) (B : List Char) (hc : c.isDigit = false) :
    reqYear (c :: B) = none := by
  simp [reqYear, digitRun_cons_not c B hc]

theorem reqYear_shape (A : List Char) (c : Char) (B : List Char)
    (hA : ∀ x ∈ A, x.isDigit = true) (hc : c.isDigit = false) :
    reqYear (A ++ c :: B) =
      if A.length = 4 ∧ 1 ≤ digitsVal A then some (digitsVal A, c :: B) else none := by
  simp only [reqYear, digitRun_append_cons A c B hA hc]

theorem reqRun2_shape (lo hi : Nat) (A : List Char) (c : Char) (B : List Char)
    (hA : ∀ x ∈ A, x.isDigit = true) (hc : c.isDigit = false) :
    reqRun2 lo hi (A ++ c :: B) =
      if (A.length = 1 ∨ A.length = 2) ∧ lo ≤ digitsVal A ∧ digitsVal A ≤ hi then
        some (digitsVal A, c :: B)
      else none := by
  simp only [reqRun2, digitRun_append_cons A c B hA hc]

theorem reqRun2_long (lo hi : Nat) (A : List Char)
    (hA : ∀ x ∈ A, x.isDigit = true) (hlen : 3 ≤ A.length) :
    reqRun2 lo hi A = none := by
  simp only [reqRun2, digitRun_all A hA]
  rw [if_neg]
  rintro ⟨h | h, -⟩ <;> omega

theorem optBind_none (f : α → Option β) : (none : Option α) >>= f = none := rfl

theorem optBind_some (a : α) (f : α → Option β) : (some a) >>= f = f a := rfl

theorem exp_eq (c : Char) (B : List Char) : expectChar c (c :: B) = some B := by
  simp [expectChar]

theorem exp_ne (x c : Char) (B : List Char) (h : c ≠ x) :
    expectChar x (c :: B) = none := by
  simp [expectChar, h]

theorem parseCanonical_none_head (s : String) (c : Char) (B : List Char)
    (hdata : s.data = c :: B) (hc : c.isDigit = false) :
    parseCanonical s = none := by
  simp only [parseCanonical, hdata]
  rw [reqYear_cons_not c B hc, optBind_none]

/-- None of the four alternate layouts produced by `_format_datetime`
matches the canonical format: the reformatted start timestamp always
fails the canonical parse in `_modify_datetime`'s end-before-start
step. -/
theorem formatAlt_not_canonical (i : Nat) (t : Int) :
    parseCanonical (formatAlt i t) = none := by
  rcases hsp : splitEpoch t with ⟨yy, rest0⟩
  rcases rest0 with ⟨mo, rest1⟩
  rcases rest1 with ⟨dd, rest2⟩
  rcases rest2 with ⟨hh, rest3⟩
  rcases rest3 with ⟨mm, ss⟩
  have hslash : ("/" : String).data = ['/'] := rfl
  have hcolon : (":" : String).data = [':'] := rfl
  have hspace : (" " : String).data = [' '] := rfl
  have hdash : ("-" : String).data = ['-'] := rfl
  have hm := pad2_all_digits mo
  have hd := pad2_all_digits dd
  have hhh := pad2_all_digits hh
  have hmm := pad2_all_digits mm
  have hss := pad2_all_digits ss
  rcases i with _ | i
  · -- slash layout
    have hdata : (formatAlt 0 t).data =
        (pad4 yy).data ++ '/' :: ((pad2 mo).data ++ '/' :: ((pad2 dd).data ++ ' ' ::
          ((pad2 hh).data ++ ':' :: ((pad2 mm).data ++ ':' :: (pad2 ss).data)))) := by
      simp [formatAlt, hsp, strData_append, hslash, hcolon, hspace, List.append_assoc]
    rcases le_or_lt 0 yy with hy | hy
    · have hy4 := pad4_all_digits yy hy
      simp only [parseCanonical, hdata]
      rw [reqYear_shape _ '/' _ hy4 (by decide)]
      by_cases hcond : (pad4 yy).data.length = 4 ∧ 1 ≤ digitsVal (pad4 yy).data
      · rw [if_pos hcond]
        simp only [optBind_some]
        rw [exp_ne '-' '/' _ (by decide), optBind_none]
      · rw [if_neg hcond, optBind_none]
    · obtain ⟨r, hr⟩ := pad4_neg yy hy
      have hcons := hdata
      rw [hr] at hcons
      simp only [List.cons_append, List.append_assoc] at hcons
      exact parseCanonical_none_head _ '-' _ hcons (by decide)
  rcases i with _ | i
  · -- no date separators
    have hdata : (formatAlt 1 t).data =
        ((pad4 yy).data ++ ((pad2 mo).data ++ (pad2 dd).data)) ++ ' ' ::
          ((pad2 hh).data ++ ':' :: ((pad2 mm).data ++ ':' :: (pad2 ss).data)) := by
      simp [formatAlt, hsp, strData_append, hcolon, hspace, List.append_assoc]
    rcases le_or_lt 0 yy with hy | hy
    · have hy4 := pad4_all_digits yy hy
      have hA : ∀ x ∈ (pad4 yy).data ++ ((pad2 mo).data ++ (pad2 dd).data),
          x.isDigit = true := by
        intro x hx
        rcases List.mem_append.mp hx with hx | hx
        · exact hy4 x hx
        · rcases List.mem_append.mp hx with hx | hx
          · exact hm x hx
          · exact hd x hx
      simp only [parseCanonical, hdata]
      rw [reqYear_shape _ ' ' _ hA (by decide)]
      rw [if_neg, optBind_none]
      rintro ⟨h4, -⟩
      have l1 := pad4_length_ge yy hy
      have l2 := pad2_length_ge mo
      have l3 := pad2_length_ge dd
      rw [List.length_append, List.length_append] at h4
      omega
    · obtain ⟨r, hr⟩ := pad4_neg yy hy
      have hcons := hdata
      rw [hr] at hcons
      simp only [List.cons_append, List.append_assoc] at hcons
      exact parseCanonical_none_head _ '-' _ hcons (by decide)
  rcases i with _ | i
  · -- no time separators
    have hdata : (formatAlt 2 t).data =
        (pad4 yy).data ++ '-' :: ((pad2 mo).data ++ '-' :: ((pad2 dd).data ++ ' ' ::
          ((pad2 hh).data ++ ((pad2 mm).data ++ (pad2 ss).data)))) := by
      simp [formatAlt, hsp, strData_append, hdash, hspace, List.append_assoc]
    rcases le_or_lt 0 yy with hy | hy
    · have hy4 := pad4_all_digits yy hy
      have hT : ∀ x ∈ (pad2 hh).data ++ ((pad2 mm).data ++ (pad2 ss).data),
          x.isDigit = true := by
        intro x hx
        rcases List.mem_append.mp hx with hx | hx
        · exact hhh x hx
        · rcases List.mem_append.mp hx with hx | hx
          · exact hmm x hx
          · exact hss x hx
      simp only [parseCanonical, hdata]
      rw [reqYear_shape _ '-' _ hy4 (by decide)]
      by_cases hcond : (pad4 yy).data.length = 4 ∧ 1 ≤ digitsVal (pad4 yy).data
      · rw [if_pos hcond]
        simp only [optBind_some]
        rw [exp_eq, optBind_some]
        simp only [parseDatePart]
        rw [reqRun2_shape 1 12 _ '-' _ hm (by decide)]
        by_cases hcm : ((pad2 mo).data.length = 1 ∨ (pad2 mo).data.length = 2) ∧
            1 ≤ digitsVal (pad2 mo).data ∧ digitsVal (pad2 mo).data ≤ 12
        · rw [if_pos hcm]
          simp only [optBind_some]
          rw [exp_eq, optBind_some]
          simp only [parseDay]
          rw [reqRun2_shape 1 _ _ ' ' _ hd (by decide)]
          by_cases hcd : ((pad2 dd).data.length = 1 ∨ (pad2 dd).data.length = 2) ∧
              1 ≤ digitsVal (pad2 dd).data ∧
              digitsVal (pad2 dd).data ≤
                daysInMonth (digitsVal (pad4 yy).data : Int) (digitsVal (pad2 mo).data)
          · rw [if_pos hcd]
            simp only [optBind_some]
            rw [exp_eq, optBind_some]
            simp only [parseTimePart]
            rw [reqRun2_long 0 23 _ hT (by
              rw [List.length_append, List.length_append]
              have l1 := pad2_length_ge hh
              have l2 := pad2_length_ge mm
              have l3 := pad2_length_ge ss
              omega), optBind_none]
          · rw [if_neg hcd, optBind_none]
        · rw [if_neg hcm, optBind_none]
      · rw [if_neg hcond, optBind_none]
    · obtain ⟨r, hr⟩ := pad4_neg yy hy
      have hcons := hdata
      rw [hr] at hcons
      simp only [List.cons_append, List.append_assoc] at hcons
      exact parseCanonical_none_head _ '-' _ hcons (by decide)
  · -- all hyphens
    have hdata : (formatAlt (i + 3) t).data =
        (pad4 yy).data ++ '-' :: ((pad2 mo).data ++ '-' :: ((pad2 dd).data ++ '-' ::
          ((pad2 hh).data ++ '-' :: ((pad2 mm).data ++ '-' :: (pad2 ss).data)))) := by
      simp [formatAlt, hsp, strData_append, hdash, List.append_assoc]
    rcases le_or_lt 0 yy with hy | hy
    · have hy4 := pad4_all_digits yy hy
      simp only [parseCanonical, hdata]
      rw [reqYear_shape _ '-' _ hy4 (by decide)]
      by_cases hcond : (pad4 yy).data.length = 4 ∧ 1 ≤ digitsVal (pad4 yy).data
      · rw [if_pos hcond]
        simp only [optBind_some]
        rw [exp_eq, optBind_some]
        simp only [parseDatePart]
        rw [reqRun2_shape 1 12 _ '-' _ hm (by decide)]
        by_cases hcm : ((pad2 mo).data.length = 1 ∨ (pad2 mo).data.length = 2) ∧
            1 ≤ digitsVal (pad2 mo).data ∧ digitsVal (pad2 mo).data ≤ 12
        · rw [if_pos hcm]
          simp only [optBind_some]
          rw [exp_eq, optBind_some]
          simp only [parseDay]
          rw [reqRun2_shape 1 _ _ '-' _ hd (by decide)]
          by_cases hcd : ((pad2 dd).data.length = 1 ∨ (pad2 dd).data.length = 2) ∧
              1 ≤ digitsVal (pad2 dd).data ∧
              digitsVal (pad2 dd).data ≤
                daysInMonth (digitsVal (pad4 yy).data : Int) (digitsVal (pad2 mo).data)
          · rw [if_pos hcd]
            simp only [optBind_some]
            rw [exp_ne ' ' '-' _ (by decide), optBind_none]
          · rw [if_neg hcd, optBind_none]
        · rw [if_neg hcm, optBind_none]
      · rw [if_neg hcond, optBind_none]
    · obtain ⟨r, hr⟩ := pad4_neg yy hy
      have hcons := hdata
      rw [hr] at hcons
      simp only [List.cons_append, List.append_assoc] at hcons
      exact parseCanonical_none_head _ '-' _ hcons (by decide)

/-! ## Claim C3: the end-before-start mutation -/

/-- Oracle for the C3 counterexample: with error probability 1 both
gates fire; both format choices pick the slash layout. -/
def gC3 : Rng := ⟨[], [0, 0], []⟩

set_option maxHeartbeats 2000000 in
/-- Counterexample to Claim C3 as stated: when the reformat gate fires
on the same row, the end-before-start step does not parse the
pre-reformat start — it parses the reformatted start, fails, and the
`except` clause returns both timestamps merely reformatted: the end is
not replaced by start-minus-delta and is not in the canonical
format. -/
theorem c3_counterexample :
    (modifyDatetime 1 gC3 (Cell.str "2024-01-05 10:00:00")
        (Cell.str "2024-01-05 11:00:00")).1 =
      (Cell.str "2024/01/05 10:00:00", Cell.str "2024/01/05 11:00:00") ∧
    parseCanonical "2024/01/05 11:00:00" = none := by
  refine ⟨by decide, by decide⟩

/-- Claim C3 (amended): for a row with both timestamps present whose
start parses canonically, if the reformat gate did not fire and the
end-before-start gate fired, the mutator subtracts a delta of 1–24
hours, 1–7 days, or 1–4 weeks from the parsed start and writes the new
end canonically, leaving the start unchanged; if the reformat gate
fired, the reformatted start no longer parses under the canonical
format, so the end-before-start step is silently skipped and both
timestamps are returned as reformatted, whether or not its gate
fired. -/
theorem c3_amended (p : ℚ) (g : Rng) (s e : String) (t : Int)
    (hs : parseCanonical s = some t) :
    ((shouldErr p g).1 = false →
      (shouldErr p (shouldErr p g).2).1 = true →
      ∃ δ : Int,
        ((∃ hn : Nat, 1 ≤ hn ∧ hn ≤ 24 ∧ δ = (hn : Int) * 3600) ∨
         (∃ dn : Nat, 1 ≤ dn ∧ dn ≤ 7 ∧ δ = (dn : Int) * 86400) ∨
         (∃ wn : Nat, 1 ≤ wn ∧ wn ≤ 4 ∧ δ = (wn : Int) * 604800)) ∧
        (modifyDatetime p g (Cell.str s) (Cell.str e)).1 =
          (Cell.str s, Cell.str (formatCanonical (t - δ)))) ∧
    ((shouldErr p g).1 = true →
      parseCell (mdFormatStage true (shouldErr p g).2 (Cell.str s) (Cell.str e)).1 = none ∧
      (modifyDatetime p g (Cell.str s) (Cell.str e)).1 =
        ((mdFormatStage true (shouldErr p g).2 (Cell.str s) (Cell.str e)).1,
         (mdFormatStage true (shouldErr p g).2 (Cell.str s) (Cell.str e)).2.1)) := by
  rcases hb1 : shouldErr p g with ⟨b1, g1⟩
  constructor
  · intro h1 h2
    have h1' : b1 = false := h1
    subst h1'
    have h2x : (shouldErr p g1).1 = true := h2
    rcases hb2 : shouldErr p g1 with ⟨b2, g2⟩
    have h2' : b2 = true := by rw [hb2] at h2x; exact h2x
    subst h2'
    simp only [modifyDatetime]
    rw [if_neg (by simp)]
    simp only [hb1]
    simp only [mdFormatStage, Bool.false_eq_true, if_false]
    simp only [hb2]
    simp only [mdBackdateStage, if_true, parseCell, hs]
    rcases hpn1 : popN g2 with ⟨n1, g3⟩
    rcases hpn2 : popN g3 with ⟨n2, g4⟩
    rcases hpn3 : popN g4 with ⟨n3, g5⟩
    rcases hpn4 : popN g5 with ⟨n4, g6⟩
    simp only [randInt, hpn1, hpn2, hpn3, hpn4]
    have h3 : n4 % 3 = 0 ∨ n4 % 3 = 1 ∨ n4 % 3 = 2 := by omega
    rcases h3 with h3 | h3 | h3 <;> rw [h3]
    · exact ⟨((1 + n1 % 24 : Nat) : Int) * 3600,
        Or.inl ⟨1 + n1 % 24, by omega, by omega, rfl⟩, rfl⟩
    · exact ⟨((1 + n2 % 7 : Nat) : Int) * 86400,
        Or.inr (Or.inl ⟨1 + n2 % 7, by omega, by omega, rfl⟩), rfl⟩
    · exact ⟨((1 + n3 % 4 : Nat) : Int) * 604800,
        Or.inr (Or.inr ⟨1 + n3 % 4, by omega, by omega, rfl⟩), rfl⟩
  · intro h1
    have h1' : b1 = true := h1
    subst h1'
    simp only
    have hfs : formatDatetime g1 (Cell.str s) =
        (Cell.str (formatAlt ((popN g1).1 % 4) t), (popN g1).2) := by
      rcases hpn : popN g1 with ⟨n, g2⟩
      simp [formatDatetime, parseCell, hs, hpn]
    have hstage1 : (mdFormatStage true g1 (Cell.str s) (Cell.str e)).1 =
        Cell.str (formatAlt ((popN g1).1 % 4) t) := by
      simp only [mdFormatStage, if_true]
      rw [hfs]
    have hnone : parseCell (mdFormatStage true g1 (Cell.str s) (Cell.str e)).1 = none := by
      rw [hstage1]
      simp only [parseCell]
      exact formatAlt_not_canonical _ t
    refine ⟨hnone, ?_⟩
    simp only [modifyDatetime]
    rw [if_neg (by simp)]
    simp only [hb1]
    rcases hstage : mdFormatStage true g1 (Cell.str s) (Cell.str e) with ⟨s1, e1, g2⟩
    rw [hstage] at hnone
    simp only at hnone
    simp only [hstage]
    rcases hb2 : shouldErr p g2 with ⟨b2, g3⟩
    simp only [hb2]
    cases b2
    · simp [mdBackdateStage]
    · simp [mdBackdateStage, hnone]

/-- Oracle for the C3 amended witness: reformat gate draw 3/4 (off at
probability 1/2), end-before-start gate draw 0 (on). -/
def gC3w : Rng := ⟨[q34, 0], [0, 0, 0, 0], []⟩

set_option maxHeartbeats 2000000 in
/-- Witness for C3 (amended) at a concrete timestamp pair. -/
theorem c3_amended_witness :
    parseCanonical "2024-01-15 12:00:00" = some 1705320000 ∧
    (((shouldErr qHalf gC3w).1 = false →
      (shouldErr qHalf (shouldErr qHalf gC3w).2).1 = true →
      ∃ δ : Int,
        ((∃ hn : Nat, 1 ≤ hn ∧ hn ≤ 24 ∧ δ = (hn : Int) * 3600) ∨
         (∃ dn : Nat, 1 ≤ dn ∧ dn ≤ 7 ∧ δ = (dn : Int) * 86400) ∨
         (∃ wn : Nat, 1 ≤ wn ∧ wn ≤ 4 ∧ δ = (wn : Int) * 604800)) ∧
        (modifyDatetime qHalf gC3w (Cell.str "2024-01-15 12:00:00")
            (Cell.str "2024-01-15 13:00:00")).1 =
          (Cell.str "2024-01-15 12:00:00",
           Cell.str (formatCanonical (1705320000 - δ)))) ∧
     ((shouldErr qHalf gC3w).1 = true →
      parseCell (mdFormatStage true (shouldErr qHalf gC3w).2
          (Cell.str "2024-01-15 12:00:00") (Cell.str "2024-01-15 13:00:00")).1 = none ∧
      (modifyDatetime qHalf gC3w (Cell.str "2024-01-15 12:00:00")
          (Cell.str "2024-01-15 13:00:00")).1 =
        ((mdFormatStage true (shouldErr qHalf gC3w).2
            (Cell.str "2024-01-15 12:00:00") (Cell.str "2024-01-15 13:00:00")).1,
         (mdFormatStage true (shouldErr qHalf gC3w).2
            (Cell.str "2024-01-15 12:00:00") (Cell.str "2024-01-15 13:00:00")).2.1))) :=
  ⟨by decide,
   c3_amended qHalf gC3w "2024-01-15 12:00:00" "2024-01-15 13:00:00" 1705320000 (by decide)⟩

/-! ## Claim C8: the missing-value injector -/

theorem numEmpty_eq_floor (n : Nat) (pct : ℚ) (h : 0 ≤ pct) :
    (numEmpty n pct : Int) = ⌊(n : ℚ) * pct⌋ := by
  have hnum : (pct.num.toNat : Int) = pct.num := Int.toNat_of_nonneg (Rat.num_nonneg.mpr h)
  have hval : (n : ℚ) * pct = ((n * pct.num.toNat : ℕ) : ℚ) / ((pct.den : ℕ) : ℚ) := by
    conv_lhs => rw [← Rat.num_div_den pct]
    have hq : ((pct.num.toNat : ℚ)) = ((pct.num : ℤ) : ℚ) := by exact_mod_cast hnum
    push_cast [hq]
    ring
  rw [numEmpty, hval, Rat.floor_natCast_div_natCast]
  push_cast
  rfl

theorem numEmpty_le (n : Nat) (pct : ℚ) (h0 : 0 ≤ pct) (h1 : pct ≤ 1) :
    numEmpty n pct ≤ n := by
  have h : (numEmpty n pct : Int) ≤ (n : Int) := by
    rw [numEmpty_eq_floor n pct h0]
    calc ⌊(n : ℚ) * pct⌋ ≤ ⌊(n : ℚ) * 1⌋ :=
          Int.floor_le_floor (mul_le_mul_of_nonneg_left h1 (by positivity))
      _ = n := by rw [mul_one, Int.floor_natCast]
  exact_mod_cast h

theorem sampleIdxs_valid (n k : Nat) (g : Rng) (hkn : k ≤ n) :
    (sampleIdxs n k g).1.Nodup ∧ (sampleIdxs n k g).1.length = k ∧
      ∀ i ∈ (sampleIdxs n k g).1, i < n := by
  simp only [sampleIdxs]
  rcases hp : popSample g with ⟨cand, g1⟩
  simp only [hp]
  by_cases hv : cand.Nodup ∧ cand.length = k ∧ ∀ i ∈ cand, i < n
  · rw [if_pos hv]; exact hv
  · rw [if_neg hv, if_pos hkn]
    exact ⟨List.nodup_range _, List.length_range _,
      fun i hi => lt_of_lt_of_le (List.mem_range.mp hi) hkn⟩

theorem getD_mapIdxGo (f : Nat → Row → Row) (j : Nat) (l : List Row) (i : Nat) :
    (mapIdxGo f j l).getD i nullRow =
      if i < l.length then f (j + i) (l.getD i nullRow) else nullRow := by
  induction l generalizing j i with
  | nil => simp [mapIdxGo]
  | cons r t ih =>
    cases i with
    | zero => simp [mapIdxGo]
    | succ i =>
      simp only [mapIdxGo, List.getD_cons_succ, List.length_cons]
      rw [ih (j + 1) i]
      have : j + 1 + i = j + (i + 1) := by omega
      rw [this]
      by_cases hi : i < t.length
      · rw [if_pos hi, if_pos (by omega)]
      · rw [if_neg hi, if_neg (by omega)]

theorem cellAt_injectColumn (c : Col) (idxs : List Nat) (df : DF) (i : Nat) (c' : Col) :
    cellAt (injectColumn c idxs df) i c' =
      if i < df.length ∧ i ∈ idxs ∧ c' = c then Cell.null else cellAt df i c' := by
  simp only [cellAt, injectColumn, getD_mapIdxGo, Nat.zero_add]
  by_cases h1 : i < df.length
  · rw [if_pos h1]
    by_cases h2 : i ∈ idxs
    · rw [if_pos h2]
      by_cases h3 : c' = c
      · subst h3
        rw [rowGet_rowSet_same, if_pos ⟨h1, h2, rfl⟩]
      · rw [rowGet_rowSet_other _ _ _ _ h3, if_neg (by tauto)]
    · rw [if_neg h2, if_neg (by tauto)]
  · rw [if_neg h1, if_neg (by tauto)]
    rw [List.getD_eq_default _ _ (by omega)]

theorem cellAt_injectCols_skip (L : List Col) (n k : Nat) (c : Col)
    (hc : c ∉ L ∨ c = Col.ride_id ∨ c = Col.start_station_id ∨ c = Col.end_station_id) :
    ∀ (df : DF) (g : Rng) (i : Nat),
      cellAt (injectCols n k L (df, g)).1 i c = cellAt df i c := by
  induction L with
  | nil => intro df g i; rfl
  | cons c0 cs ih =>
    intro df g i
    have hc' : c ∉ cs ∨ c = Col.ride_id ∨ c = Col.start_station_id ∨ c = Col.end_station_id := by
      rcases hc with hc | hc
      · exact Or.inl (fun h => hc (List.mem_cons_of_mem _ h))
      · exact Or.inr hc
    simp only [injectCols]
    by_cases hid : c0 = Col.ride_id ∨ c0 = Col.start_station_id ∨ c0 = Col.end_station_id
    · rw [if_pos hid]
      exact ih hc' df g i
    · rw [if_neg hid]
      rcases hs : sampleIdxs n k g with ⟨idxs, g1⟩
      simp only [hs]
      have hne : c ≠ c0 := by
        rcases hc with hc | hc
        · exact fun h => hc (h ▸ List.mem_cons_self _ _)
        · exact fun h => hid (h ▸ hc)
      rw [ih hc' (injectColumn c0 idxs df) g1 i, cellAt_injectColumn]
      rw [if_neg (fun h => hne h.2.2)]

theorem cellAt_injectCols_mem (L : List Col) (n k : Nat) (c : Col) :
    ∀ (df : DF) (g : Rng),
      c ∈ L → L.Nodup →
      ¬(c = Col.ride_id ∨ c = Col.start_station_id ∨ c = Col.end_station_id) →
      df.length = n → k ≤ n →
      ∃ idxs : List Nat, idxs.Nodup ∧ idxs.length = k ∧ (∀ i ∈ idxs, i < n) ∧
        ∀ i, i < n →
          cellAt (injectCols n k L (df, g)).1 i c =
            (if i ∈ idxs then Cell.null else cellAt df i c) := by
  induction L with
  | nil => intro df g hmem; exact absurd hmem (List.not_mem_nil c)
  | cons c0 cs ih =>
    intro df g hmem hnd hid hlen hkn
    simp only [injectCols]
    by_cases hid0 : c0 = Col.ride_id ∨ c0 = Col.start_station_id ∨ c0 = Col.end_station_id
    · rw [if_pos hid0]
      have hc_cs : c ∈ cs := by
        rcases List.mem_cons.mp hmem with h | h
        · exact absurd (h ▸ hid0) hid
        · exact h
      exact ih df g hc_cs (List.nodup_cons.mp hnd).2 hid hlen hkn
    · rw [if_neg hid0]
      rcases hs : sampleIdxs n k g with ⟨idxs, g1⟩
      simp only [hs]
      by_cases hceq : c = c0
      · subst hceq
        have hnotin : c ∉ cs := (List.nodup_cons.mp hnd).1
        have hprops := sampleIdxs_valid n k g hkn
        rw [hs] at hprops
        refine ⟨idxs, hprops.1, hprops.2.1, hprops.2.2, ?_⟩
        intro i hi
        rw [cellAt_injectCols_skip cs n k c (Or.inl hnotin), cellAt_injectColumn]
        by_cases h2 : i ∈ idxs
        · rw [if_pos ⟨hlen ▸ hi, h2, rfl⟩, if_pos h2]
        · rw [if_neg (by tauto), if_neg h2]
      · have hc_cs : c ∈ cs := by
          rcases List.mem_cons.mp hmem with h | h
          · exact absurd h hceq
          · exact h
        have hlen' : (injectColumn c0 idxs df).length = n := by
          rw [length_injectColumn]; exact hlen
        obtain ⟨idxs', hnd', hlen'', hbound', hpt⟩ :=
          ih (injectColumn c0 idxs df) g1 hc_cs (List.nodup_cons.mp hnd).2 hid hlen' hkn
        refine ⟨idxs', hnd', hlen'', hbound', ?_⟩
        intro i hi
        rw [hpt i hi, cellAt_injectColumn,
          if_neg (show ¬(i < df.length ∧ i ∈ idxs ∧ c = c0) from fun h => hceq h.2.2)]

/-- Claim C8: for every column except the three identifier columns, one
run of the missing-value injector assigns the missing marker at exactly
`⌊rowCount × maxEmptyFraction⌋` row positions of that column — the
positions are distinct (sampled without replacement; which distinct set
is chosen is up to the random oracle) and below the row count, and
every other cell of the column is untouched; the three identifier
columns receive no injected missing values. -/
theorem c8_missing_injector (pct : ℚ) (g : Rng) (df : DF)
    (h0 : 0 ≤ pct) (h1 : pct ≤ 1) :
    (∀ c : Col, ¬(c = Col.ride_id ∨ c = Col.start_station_id ∨ c = Col.end_station_id) →
      ∃ idxs : List Nat, idxs.Nodup ∧ (idxs.length : Int) = ⌊(df.length : ℚ) * pct⌋ ∧
        (∀ i ∈ idxs, i < df.length) ∧
        ∀ i, i < df.length →
          cellAt (injectEmpty pct g df).1 i c =
            (if i ∈ idxs then Cell.null else cellAt df i c)) ∧
    (∀ c : Col, (c = Col.ride_id ∨ c = Col.start_station_id ∨ c = Col.end_station_id) →
      ∀ i, cellAt (injectEmpty pct g df).1 i c = cellAt df i c) := by
  have hkn := numEmpty_le df.length pct h0 h1
  constructor
  · intro c hc
    have hmem : c ∈ allCols := by cases c <;> decide
    have hnd : allCols.Nodup := by decide
    obtain ⟨idxs, hnd', hlen, hbound, hpt⟩ :=
      cellAt_injectCols_mem allCols df.length (numEmpty df.length pct) c df g
        hmem hnd hc rfl hkn
    refine ⟨idxs, hnd', ?_, hbound, hpt⟩
    rw [hlen]
    exact numEmpty_eq_floor df.length pct h0
  · intro c hc i
    exact cellAt_injectCols_skip allCols df.length (numEmpty df.length pct) c
      (Or.inr hc) df g i

/-- A concrete empty fraction (3/100, the default) in constructor form. -/
def pctW : ℚ := ⟨3, 100, by decide, by decide⟩

/-- Witness for C8 at the default fraction on a two-row table. -/
theorem c8_missing_injector_witness :
    ((0 : ℚ) ≤ pctW ∧ pctW ≤ 1) ∧
    ((∀ c : Col, ¬(c = Col.ride_id ∨ c = Col.start_station_id ∨ c = Col.end_station_id) →
      ∃ idxs : List Nat, idxs.Nodup ∧
        (idxs.length : Int) = ⌊(([nullRow, nullRow] : DF).length : ℚ) * pctW⌋ ∧
        (∀ i ∈ idxs, i < ([nullRow, nullRow] : DF).length) ∧
        ∀ i, i < ([nullRow, nullRow] : DF).length →
          cellAt (injectEmpty pctW g0 [nullRow, nullRow]).1 i c =
            (if i ∈ idxs then Cell.null else cellAt [nullRow, nullRow] i c)) ∧
     (∀ c : Col, (c = Col.ride_id ∨ c = Col.start_station_id ∨ c = Col.end_station_id) →
      ∀ i, cellAt (injectEmpty pctW g0 [nullRow, nullRow]).1 i c =
        cellAt [nullRow, nullRow] i c)) :=
  ⟨⟨by decide, by decide⟩, c8_missing_injector pctW g0 [nullRow, nullRow] (by decide) (by decide)⟩

end CorruptData
